import Mathlib

/-!
Verification of the checkout-to-minting order-fulfillment pipeline: event intake
(`webhooks.app.orders-create.ts`), the order-processing worker, the digital-identity
issuer (`DigitalIdService`) and the minting coordinator (`token-minting.service.ts`),
shallowly embedded in Lean.  The relational store and the job queue are modelled as
explicit state; every source function is translated branch-for-branch, including the
JavaScript truthiness semantics of `??`, `||` and `!x` on strings and bigints.
-/

namespace ThreeFA

/-! ### Decimal rendering of naturals

`Nat.repr` is used by the source to build dedup keys, job ids, GIDs and
unit-index-qualified uniqueness keys.  We prove it injective so that distinct unit
indices give distinct keys. -/

/-- Big-endian decimal digit characters of a natural number; the fuel-free
counterpart of core `Nat.toDigitsCore`. -/
def decChars (n : Nat) : List Char :=
  if h : n < 10 then [Nat.digitChar n]
  else decChars (n / 10) ++ [Nat.digitChar (n % 10)]
termination_by n
decreasing_by
  exact Nat.div_lt_self (by omega) (by omega)

theorem decChars_lt {n : Nat} (h : n < 10) : decChars n = [Nat.digitChar n] := by
  rw [decChars]
  simp [h]

theorem decChars_ge {n : Nat} (h : ¬ n < 10) :
    decChars n = decChars (n / 10) ++ [Nat.digitChar (n % 10)] := by
  conv_lhs => rw [decChars]
  simp [h]

theorem toDigitsCore_eq_decChars (fuel n : Nat) (ds : List Char) (h : n < fuel) :
    Nat.toDigitsCore 10 fuel n ds = decChars n ++ ds := by
  induction fuel generalizing n ds with
  | zero => omega
  | succ f ih =>
    rw [Nat.toDigitsCore]
    by_cases h0 : n / 10 = 0
    · have hn : n < 10 := by
        have h1 := Nat.div_add_mod n 10
        have h2 := Nat.mod_lt n (show (0 : Nat) < 10 by omega)
        omega
      rw [if_pos h0, decChars_lt hn, Nat.mod_eq_of_lt hn]
      simp
    · have hn : ¬ n < 10 := fun hc => h0 (Nat.div_eq_of_lt hc)
      rw [if_neg h0, ih (n / 10) _ (by
        have h1 : n / 10 < n := Nat.div_lt_self (by omega) (by omega)
        omega), decChars_ge hn]
      simp

theorem repr_eq_decChars (n : Nat) : Nat.repr n = (decChars n).asString := by
  rw [Nat.repr, Nat.toDigits, toDigitsCore_eq_decChars (n + 1) n [] (by omega)]
  simp

/-- Numeric value of a decimal digit character. -/
def charVal (c : Char) : Nat := c.toNat - 48

theorem charVal_digitChar_fin : ∀ d : Fin 10, charVal (Nat.digitChar d.val) = d.val := by
  decide

theorem charVal_digitChar {d : Nat} (h : d < 10) : charVal (Nat.digitChar d) = d :=
  charVal_digitChar_fin ⟨d, h⟩

/-- Reading a digit-character list back as a natural number. -/
def ofDecChars (l : List Char) : Nat := l.foldl (fun a c => a * 10 + charVal c) 0

theorem ofDecChars_decChars (n : Nat) : ofDecChars (decChars n) = n := by
  induction n using Nat.strong_induction_on with
  | _ n ih =>
    by_cases h : n < 10
    · rw [decChars_lt h]
      simp [ofDecChars, charVal_digitChar h]
    · rw [decChars_ge h]
      have hrec : n / 10 < n := Nat.div_lt_self (by omega) (by omega)
      have := ih (n / 10) hrec
      simp only [ofDecChars, List.foldl_append, List.foldl_cons, List.foldl_nil]
      rw [show (decChars (n / 10)).foldl (fun a c => a * 10 + charVal c) 0 = n / 10 from this]
      rw [charVal_digitChar (Nat.mod_lt n (by omega))]
      omega

theorem decChars_injective : Function.Injective decChars := by
  intro m n h
  have hm := ofDecChars_decChars m
  rw [h, ofDecChars_decChars n] at hm
  exact hm.symm

theorem natRepr_injective : Function.Injective Nat.repr := by
  intro m n h
  rw [repr_eq_decChars, repr_eq_decChars] at h
  apply decChars_injective
  have := congrArg String.data h
  simpa [List.asString] using this

theorem string_append_left_cancel {s a b : String} (h : s ++ a = s ++ b) : a = b := by
  have hd := congrArg String.data h
  simp only [String.data_append] at hd
  have h2 := List.append_cancel_left hd
  cases a; cases b; exact congrArg String.mk h2

/-! ### JavaScript truthiness helpers

The source relies on `??` (nullish coalescing: skips only `null`/`undefined`),
`||` (skips every falsy value, so also the empty string and the bigint `0n`),
and `!x` (true on `null`/`undefined`/`""`/`0n`). -/

/-- `!x` for an optional string: true iff the value is `null`/`undefined` or `""`. -/
def isFalsyStr : Option String → Bool
  | none => true
  | some s => s == ""

/-- Coerce an optional string to `undefined` when falsy (the `x || undefined` idiom). -/
def truthyStr : Option String → Option String
  | none => none
  | some s => if s = "" then none else some s

/-- `a || b` on optional strings: `b` when `a` is falsy, else `a`. -/
def jsOrStr (a b : Option String) : Option String :=
  match a with
  | none => b
  | some s => if s = "" then b else some s

/-! ### Event intake — `webhooks.app.orders-create.ts`

The webhook payload is modelled with exactly the fields the handler reads.  An
`Option` field is `none` when the JSON key is absent or null. -/

structure Address where
  phone : Option String
deriving DecidableEq

structure CustomerPayload where
  phone : Option String
deriving DecidableEq

structure PayloadOrder where
  /-- `payload.id`; `none` models a missing or non-numeric Shopify order id. -/
  id : Option Nat
  phone : Option String
  shipping_address : Option Address
  billing_address : Option Address
  customer : Option CustomerPayload
deriving DecidableEq

/-- The `WebhookEvent` row (the spec's RawEvent).  `processedAt` records whether the
timestamp column was set. -/
structure WebhookEvent where
  id : Nat
  shopId : String
  topic : String
  payload : PayloadOrder
  processed : Bool
  processedAt : Bool
  lastError : Option String
  errorCount : Nat
  eventId : String
deriving DecidableEq

/-- A job on the BullMQ order-processing queue. -/
structure QueueJob where
  jobId : String
  name : String
  webhookEventId : Nat
  timestamp : Nat
deriving DecidableEq

/-- Store state visible to the intake handler: `WebhookEvent` rows plus the queue. -/
structure IntakeState where
  events : List WebhookEvent
  nextEventId : Nat
  jobs : List QueueJob
deriving DecidableEq

structure HttpResponse where
  status : Nat
  body : Option String
deriving DecidableEq

/-- Modelled from the spec: the Prisma schema is not among the sources.  Per the spec,
the dedup key is a unique insert key on RawEvent, so `prisma.webhookEvent.create` with
an `eventId` that already exists raises (surfacing in the handler's catch block);
otherwise it inserts the row. -/
def webhookEventCreate (st : IntakeState) (shopId topic : String) (payload : PayloadOrder)
    (eventId : String) : Except Unit (WebhookEvent × IntakeState) :=
  if st.events.any (fun e => e.eventId == eventId) then
    Except.error ()
  else
    let ev : WebhookEvent :=
      { id := st.nextEventId, shopId := shopId, topic := topic, payload := payload
        processed := false, processedAt := false, lastError := none, errorCount := 0
        eventId := eventId }
    Except.ok (ev, { st with events := st.events ++ [ev], nextEventId := st.nextEventId + 1 })

/-- `prisma.webhookEvent.update` by primary key. -/
def webhookEventUpdate (st : IntakeState) (id : Nat) (f : WebhookEvent → WebhookEvent) :
    IntakeState :=
  { st with events := st.events.map (fun e => if e.id = id then f e else e) }

/-- Modelled from the spec: the queue adapter (`orderProcessingQueue.server`) is not
among the sources.  Per the spec, enqueue is idempotent by job key — `add` with a
`jobId` that already exists collapses to the existing job instead of creating a
second one. -/
def queueAdd (st : IntakeState) (name jobId : String) (webhookEventId ts : Nat) :
    IntakeState :=
  if st.jobs.any (fun j => j.jobId == jobId) then st
  else { st with jobs := st.jobs ++
    [{ jobId := jobId, name := name, webhookEventId := webhookEventId, timestamp := ts }] }

/-- `topic.toLowerCase().replace(/_/g, '/')` — both operations are per-character. -/
def normalizeTopic (topic : String) : String :=
  String.mk (topic.data.map (fun c => if c.toLower = '_' then '/' else c.toLower))

/-- The handler's phone extraction:
`payload.phone ?? shipping_address?.phone ?? billing_address?.phone ?? customer?.phone`.
`??` takes the first value that is not null/undefined — an empty string wins. -/
def customerPhoneOf (p : PayloadOrder) : Option String :=
  (((p.phone).orElse
      (fun _ => p.shipping_address.bind (fun a => a.phone))).orElse
      (fun _ => p.billing_address.bind (fun a => a.phone))).orElse
      (fun _ => p.customer.bind (fun c => c.phone))

/-- The `orders/create` webhook `action`.  `now` stands for `Date.now()`; authentication
is outside the model (the handler receives shop, topic and payload from it).  The only
operation that can raise before the final response is the raw-event insert; the outer
catch turns that into the generic internal-error acknowledgment, still HTTP 200. -/
def action (st : IntakeState) (now : Nat) (shop topic : String)
    (eventIdHeader : Option String) (payload : PayloadOrder) :
    HttpResponse × IntakeState :=
  if shop = "" ∨ topic = "" then
    ({ status := 200, body := some "Invalid payload" }, st)
  else
    match payload.id with
    | none => ({ status := 200, body := some "Invalid payload - Missing Order ID" }, st)
    | some shopifyOrderIdNum =>
      if normalizeTopic topic ≠ "orders/create" then
        ({ status := 200, body := none }, st)
      else
        let eventId :=
          match eventIdHeader with
          | some e => e
          | none => "generated_" ++ Nat.repr now ++ "_" ++ Nat.repr shopifyOrderIdNum
        match webhookEventCreate st shop (normalizeTopic topic) payload eventId with
        | Except.error _ =>
          ({ status := 200, body := some "Error processing webhook internally, acknowledged." }, st)
        | Except.ok (webhookEvent, st1) =>
          if isFalsyStr (customerPhoneOf payload) then
            let st2 := webhookEventUpdate st1 webhookEvent.id (fun e =>
              { e with processed := true, processedAt := true,
                       lastError := some "Skipped: No customer phone number found in payload." })
            ({ status := 200, body := some "Acknowledged, no phone number." }, st2)
          else
            let jobId := "order-" ++ shop ++ "-" ++ Nat.repr shopifyOrderIdNum
            let st2 := queueAdd st1 ("order-create-" ++ Nat.repr shopifyOrderIdNum)
              jobId webhookEvent.id now
            ({ status := 200, body := none }, st2)

/-! ### Digital identities and minting — `DigitalIdService`, `token-minting.service.ts` -/

inductive UdiStatus
  | CREATED | MINT_PENDING | MINTED | MINT_FAILED
deriving DecidableEq

structure CoreProductVariant where
  id : String
  shopifyVariantGid : String
  myshopify_domain : String
  brand_3fa_id : Option String
  defaultSmartContractAddress : Option String
deriving DecidableEq

/-- A `UniqueDigitalId` row (the spec's DigitalIdentity).  `mintedAt` records whether
the timestamp column was set. -/
structure UniqueDigitalId where
  id : Nat
  coreProductVariantId : String
  myshopify_domain : String
  brand_3fa_id : String
  shopifyOrderId : String
  shopifyLineItemId : String
  owner3faId : String
  orders3faId : String
  privyWalletAddress : Option String
  privyDid : Option String
  status : UdiStatus
  contractAddress : Option String
  transactionHash : Option String
  blockchain : Option String
  mintedAt : Bool
deriving DecidableEq

/-- The store as seen by the issuer and the minting coordinator. -/
structure Db where
  udis : List UniqueDigitalId
  nextUdiId : Nat
  variants : List CoreProductVariant
deriving DecidableEq

/-- The uniqueness-key column values currently in the store. -/
def udiKeys (db : Db) : List String := db.udis.map (fun u => u.shopifyLineItemId)

/-- Column values of a `uniqueDigitalId.create` call (the id is assigned by the store). -/
structure UdiData where
  coreProductVariantId : String
  myshopify_domain : String
  brand_3fa_id : String
  shopifyOrderId : String
  shopifyLineItemId : String
  owner3faId : String
  orders3faId : String
  privyWalletAddress : Option String
  privyDid : Option String
  status : UdiStatus
  contractAddress : Option String
deriving DecidableEq

/-- Modelled from the spec: the Prisma schema is not among the sources.  Per the spec's
uniqueness invariant (and the source's `findUnique({ where: { shopifyLineItemId } })`,
which requires that column to be unique), `shopifyLineItemId` is a unique column:
`create` with an existing key raises, otherwise it inserts the row. -/
def udiCreate (db : Db) (d : UdiData) : Except Unit (UniqueDigitalId × Db) :=
  if db.udis.any (fun u => u.shopifyLineItemId == d.shopifyLineItemId) then
    Except.error ()
  else
    let u : UniqueDigitalId :=
      { id := db.nextUdiId, coreProductVariantId := d.coreProductVariantId
        myshopify_domain := d.myshopify_domain, brand_3fa_id := d.brand_3fa_id
        shopifyOrderId := d.shopifyOrderId, shopifyLineItemId := d.shopifyLineItemId
        owner3faId := d.owner3faId, orders3faId := d.orders3faId
        privyWalletAddress := d.privyWalletAddress, privyDid := d.privyDid
        status := d.status, contractAddress := d.contractAddress
        transactionHash := none, blockchain := none, mintedAt := false }
    Except.ok (u, { db with udis := db.udis ++ [u], nextUdiId := db.nextUdiId + 1 })

/-- `prisma.uniqueDigitalId.update` by primary key. -/
def udiUpdate (db : Db) (id : Nat) (f : UniqueDigitalId → UniqueDigitalId) : Db :=
  { db with udis := db.udis.map (fun u => if u.id = id then f u else u) }

/-- Process environment variables read by the minting path. -/
structure Env where
  BASE_MINTER_PRIVATE_KEY : Option String
  THIRDWEB_CLIENT_ID : Option String
  APP_BASE_URL : Option String
  DEFAULT_CONTRACT_ADDRESS : Option String
  BASE_CHAIN_ID : Option String
deriving DecidableEq

/-- A prepared contract call handed to the chain (`prepareContractCall`/`sendTransaction`). -/
structure MintCall where
  contractAddress : String
  method : String
  recipient : String
  metadataUrl : String
deriving DecidableEq

structure TxReceipt where
  transactionHash : Option String
deriving DecidableEq

/-- The external chain: maps a prepared call to a receipt or a raised error.  The
embedding is parametric in it. -/
def ChainOracle := MintCall → Except String TxReceipt

/-- Observable steps of the minting path, in execution order: store writes, the
lazy loading of the minting library, and calls that leave the process for the chain. -/
inductive MintEvent
  | setStatus (id : Nat) (s : UdiStatus)
  | recordMinted (id : Nat) (blockchain : String) (transactionHash : Option String)
      (contractAddress : String)
  | importMintingLib
  | chainCall (c : MintCall)
deriving DecidableEq

/-- The status a `MintEvent` writes to the store, if any. -/
def statusWritten : MintEvent → Option UdiStatus
  | MintEvent.setStatus _ s => some s
  | MintEvent.recordMinted _ _ _ _ => some UdiStatus.MINTED
  | _ => none

def trimChars (l : List Char) : List Char :=
  ((l.dropWhile Char.isWhitespace).reverse.dropWhile Char.isWhitespace).reverse

/-- `pk.startsWith('0x') ? pk.substring(2) : pk`. -/
def strip0x : List Char → List Char
  | '0' :: 'x' :: rest => rest
  | l => l

/-- One character of the `^[0-9a-fA-F]{64}$` test. -/
def isHexDigitChar (c : Char) : Bool :=
  (48 ≤ c.toNat && c.toNat ≤ 57) || (97 ≤ c.toNat && c.toNat ≤ 102) ||
    (65 ≤ c.toNat && c.toNat ≤ 70)

structure EnvOk where
  clientId : String
  privateKey : String
  appBaseUrl : String
deriving DecidableEq

/-- `ensureEnv` from `token-minting.service.ts`: presence checks (JS falsy, so an empty
string also fails) followed by private-key normalization and the 64-hex-digit test. -/
def ensureEnv (env : Env) : Except String EnvOk :=
  match truthyStr env.THIRDWEB_CLIENT_ID with
  | none => Except.error "THIRDWEB_CLIENT_ID is required for minting"
  | some clientId =>
    match truthyStr env.BASE_MINTER_PRIVATE_KEY with
    | none => Except.error "BASE_MINTER_PRIVATE_KEY is required for minting"
    | some privateKey =>
      match truthyStr env.APP_BASE_URL with
      | none => Except.error "APP_BASE_URL is required to build token metadata URLs"
      | some appBaseUrl =>
        let pk := strip0x (trimChars privateKey.data)
        if pk.length = 64 ∧ pk.all isHexDigitChar = true then
          Except.ok { clientId := clientId, privateKey := String.mk ('0' :: 'x' :: pk)
                      appBaseUrl := appBaseUrl }
        else
          Except.error ("Invalid private key format. Expected a 64-character hex string, but got a key with length " ++ Nat.repr pk.length ++ " after trimming.")

/-- `chainId === "8453" ? "base" : "base-sepolia"` with `?.trim()` on the variable. -/
def getBlockchainName (env : Env) : String :=
  if env.BASE_CHAIN_ID.map (fun s => String.mk (trimChars s.data)) = some "8453" then "base"
  else "base-sepolia"

/-- `appBaseUrl.replace(/\/$/, "")`: drop a single trailing slash. -/
def stripTrailingSlash (s : String) : String :=
  match s.data.reverse with
  | '/' :: rest => String.mk rest.reverse
  | _ => s

/-- `{baseUrl}/api/token-metadata/{digitalIdId}`. -/
def metadataUrlOf (appBaseUrl : String) (digitalIdId : Nat) : String :=
  stripTrailingSlash appBaseUrl ++ "/api/token-metadata/" ++ Nat.repr digitalIdId

/-- The ordered candidate contract call signatures tried by the coordinator. -/
def mintMethods : List String :=
  ["function mintTo(address to, string uri) returns (uint256 tokenId)",
   "function safeMint(address to, string uri)"]

/-- Result shape of `mintDigitalIdOnBase`. -/
structure MintResult where
  success : Bool
  transactionHash : Option String
  tokenId : Option String
  error : Option String
deriving DecidableEq

/-- The `for (const method of mintMethods)` loop: try each candidate against the same
call data until one succeeds (`break`); record the last error otherwise.  Returns the
receipt (if any), the final `lastError`, and the chain calls actually made. -/
def tryMintLoop (oracle : ChainOracle) (contractAddress recipient metadataUrl : String) :
    List String → Option String → Option TxReceipt × Option String × List MintEvent
  | [], lastError => (none, lastError, [])
  | m :: rest, lastError =>
    let c : MintCall := { contractAddress := contractAddress, method := m
                          recipient := recipient, metadataUrl := metadataUrl }
    match oracle c with
    | Except.ok r => (some r, none, [MintEvent.chainCall c])
    | Except.error e =>
      let t := tryMintLoop oracle contractAddress recipient metadataUrl rest (some e)
      (t.1, t.2.1, MintEvent.chainCall c :: t.2.2)

/-- The catch block of `mintDigitalIdOnBase`: mark the record `MINT_FAILED` (best
effort) and return the failure result. -/
def mintFail (db : Db) (digitalIdId : Nat) (msg : String) (evs : List MintEvent) :
    MintResult × Db × List MintEvent :=
  ({ success := false, transactionHash := none, tokenId := none, error := some msg },
   udiUpdate db digitalIdId (fun u => { u with status := UdiStatus.MINT_FAILED }),
   evs ++ [MintEvent.setStatus digitalIdId UdiStatus.MINT_FAILED])

/-- `mintDigitalIdOnBase` from `token-minting.service.ts`. -/
def mintDigitalIdOnBase (env : Env) (oracle : ChainOracle) (db : Db) (digitalIdId : Nat) :
    MintResult × Db × List MintEvent :=
  match ensureEnv env with
  | Except.error e => mintFail db digitalIdId e []
  | Except.ok cfg =>
    match db.udis.find? (fun u => u.id = digitalIdId) with
    | none => mintFail db digitalIdId ("UniqueDigitalId not found: " ++ Nat.repr digitalIdId) []
    | some digitalId =>
      match truthyStr digitalId.privyWalletAddress with
      | none => mintFail db digitalIdId "Recipient wallet address (privyWalletAddress) is missing" []
      | some recipient =>
        let variant := db.variants.find? (fun v => v.id = digitalId.coreProductVariantId)
        match truthyStr (jsOrStr digitalId.contractAddress
            (jsOrStr (variant.bind (fun v => v.defaultSmartContractAddress))
              env.DEFAULT_CONTRACT_ADDRESS)) with
        | none => mintFail db digitalIdId "No contract address found for minting (set default or per-variant)" []
        | some contractAddress =>
          let metadataUrl := metadataUrlOf cfg.appBaseUrl digitalIdId
          let t := tryMintLoop oracle contractAddress recipient metadataUrl mintMethods none
          match t.1 with
          | none =>
            mintFail db digitalIdId
              ("Mint transaction failed: " ++
                (match t.2.1 with | some e => e | none => "undefined")) t.2.2
          | some receipt =>
            let bc := getBlockchainName env
            (({ success := true, transactionHash := receipt.transactionHash
                tokenId := none, error := none } : MintResult),
             udiUpdate db digitalIdId (fun u =>
               { u with status := UdiStatus.MINTED, blockchain := some bc
                        transactionHash := receipt.transactionHash
                        contractAddress := some contractAddress, mintedAt := true }),
             t.2.2 ++ [MintEvent.recordMinted digitalIdId bc receipt.transactionHash contractAddress])

/-- `DigitalIdService.queueTokenMinting`: set `MINT_PENDING` first, short-circuit when
the minting environment is not configured (JS falsy check on the three variables, in
source order), otherwise lazily import the minting library and run the mint; every
error of the mint step is caught and only logged. -/
def queueTokenMinting (env : Env) (oracle : ChainOracle) (db : Db) (digitalIdId : Nat) :
    Db × List MintEvent :=
  let db1 := udiUpdate db digitalIdId (fun u => { u with status := UdiStatus.MINT_PENDING })
  if isFalsyStr env.BASE_MINTER_PRIVATE_KEY || isFalsyStr env.THIRDWEB_CLIENT_ID ||
      isFalsyStr env.APP_BASE_URL then
    (db1, [MintEvent.setStatus digitalIdId UdiStatus.MINT_PENDING])
  else
    let mr := mintDigitalIdOnBase env oracle db1 digitalIdId
    (mr.2.1, MintEvent.setStatus digitalIdId UdiStatus.MINT_PENDING ::
             MintEvent.importMintingLib :: mr.2.2)

/-! ### `DigitalIdService.createDigitalIdsForOrder` -/

/-- One element of the `lineItems` argument.  `variantId` is a nullable bigint: `none`
models `null`/`undefined`, and `some 0` the (falsy) bigint `0n`. -/
structure LineItemInput where
  id : String
  shopifyId : Nat
  variantId : Option Nat
  quantity : Nat
deriving DecidableEq

/-- The named arguments of `createDigitalIdsForOrder`. -/
structure IssueArgs where
  shopId : String
  shopifyOrderId : String
  lineItems : List LineItemInput
  owner3faId : String
  privyWalletAddress : Option String
  privyDid : Option String
  orders3faId : String
deriving DecidableEq

/-- The `results` accumulator of `createDigitalIdsForOrder`. -/
structure IssueResults where
  created : Nat
  failed : Nat
  digitalIds : List UniqueDigitalId
deriving DecidableEq

/-- Issuer state threaded through the loops: the accumulator, the store, and the
minting events emitted so far. -/
structure IssueState where
  results : IssueResults
  db : Db
  trace : List MintEvent
deriving DecidableEq

/-- `results.failed += q`. -/
def addFailed (st : IssueState) (q : Nat) : IssueState :=
  { st with results := { st.results with failed := st.results.failed + q } }

/-- `gid://shopify/ProductVariant/{variantId}`. -/
def variantGid (v : Nat) : String := "gid://shopify/ProductVariant/" ++ Nat.repr v

/-- `gid://shopify/LineItem/{shopifyId}`. -/
def lineItemGid (shopifyId : Nat) : String := "gid://shopify/LineItem/" ++ Nat.repr shopifyId

/-- The per-unit uniqueness key: the line-item GID, qualified with `:{i+1}` only when
the quantity exceeds one. -/
def unitKey (shopifyId quantity i : Nat) : String :=
  if quantity > 1 then lineItemGid shopifyId ++ ":" ++ Nat.repr (i + 1)
  else lineItemGid shopifyId

/-- The `findFirst` lookup of the canonical variant by (Shopify variant GID, shop). -/
def findVariant (vars : List CoreProductVariant) (shopId : String) (v : Nat) :
    Option CoreProductVariant :=
  vars.find? (fun cv => cv.shopifyVariantGid == variantGid v && cv.myshopify_domain == shopId)

/-- The column values of the per-unit `prisma.uniqueDigitalId.create` call. -/
def unitData (env : Env) (a : IssueArgs) (coreVariant : CoreProductVariant)
    (brandId : String) (li : LineItemInput) (i : Nat) : UdiData :=
  { coreProductVariantId := coreVariant.id, myshopify_domain := a.shopId
    brand_3fa_id := brandId
    shopifyOrderId := "gid://shopify/Order/" ++ a.shopifyOrderId
    shopifyLineItemId := unitKey li.shopifyId li.quantity i
    owner3faId := a.owner3faId, orders3faId := a.orders3faId
    privyWalletAddress := a.privyWalletAddress, privyDid := a.privyDid
    status := UdiStatus.CREATED
    contractAddress := jsOrStr coreVariant.defaultSmartContractAddress
      env.DEFAULT_CONTRACT_ADDRESS }

/-- The `for (let i = 0; i < lineItem.quantity; i++)` body: idempotent create at status
`CREATED` followed by the mint trigger; a raised duplicate-key error escapes to the
line-item catch carrying the state already accumulated. -/
def createUnits (env : Env) (oracle : ChainOracle) (a : IssueArgs)
    (coreVariant : CoreProductVariant) (brandId : String) (li : LineItemInput) :
    List Nat → IssueState → Except IssueState IssueState
  | [], st => Except.ok st
  | i :: rest, st =>
    match udiCreate st.db (unitData env a coreVariant brandId li i) with
    | Except.error _ => Except.error st
    | Except.ok (digitalId, db1) =>
      let qt := queueTokenMinting env oracle db1 digitalId.id
      createUnits env oracle a coreVariant brandId li rest
        { results := { created := st.results.created + 1, failed := st.results.failed
                       digitalIds := st.results.digitalIds ++ [digitalId] }
          db := qt.1, trace := st.trace ++ qt.2 }

/-- The `for (const lineItem of lineItems)` body with its try/catch: a falsy variant
reference is skipped silently (`continue`, no failure count); an unresolved variant or
missing brand linkage adds the quantity to `failed`; a raised error inside the unit
loop is caught and adds the quantity to `failed`.  No case aborts the batch. -/
def processLineItem (env : Env) (oracle : ChainOracle) (a : IssueArgs)
    (st : IssueState) (li : LineItemInput) : IssueState :=
  match li.variantId with
  | none => st
  | some v =>
    if v = 0 then st
    else
      match findVariant st.db.variants a.shopId v with
      | none => addFailed st li.quantity
      | some coreVariant =>
        match truthyStr coreVariant.brand_3fa_id with
        | none => addFailed st li.quantity
        | some brandId =>
          match createUnits env oracle a coreVariant brandId li
              (List.range li.quantity) st with
          | Except.ok stOut => stOut
          | Except.error stCaught => addFailed stCaught li.quantity

def processLineItems (env : Env) (oracle : ChainOracle) (a : IssueArgs)
    (items : List LineItemInput) (st : IssueState) : IssueState :=
  items.foldl (processLineItem env oracle a) st

/-- `DigitalIdService.createDigitalIdsForOrder`. -/
def createDigitalIdsForOrder (env : Env) (oracle : ChainOracle) (db : Db) (a : IssueArgs) :
    IssueResults × Db × List MintEvent :=
  let stOut := processLineItems env oracle a a.lineItems
    { results := { created := 0, failed := 0, digitalIds := [] }, db := db, trace := [] }
  (stOut.results, stOut.db, stOut.trace)

/-! ### Worker step 6 — final order status from the issuance outcome -/

inductive OrderStatus
  | PROCESSING | PENDING_WALLET | WALLET_PROVISIONED | FAILED_WALLET_PROVISIONING
  | FAILED_NO_PHONE_FOR_WALLET | COMPLETED | PARTIALLY_COMPLETED
  | FAILED_UDI_CREATION | FAILED_UDI_CREATION_ERROR | FAILED_PREREQUISITES_FOR_UDI
deriving DecidableEq

/-- The status the worker writes to the `Orders3fa` record in its step 6 (`--- 6.
Create Digital IDs ---`), as a function of the three prerequisites and of the issuance
step's outcome (`Except.error` models an exception thrown during the attempt).  `none`
means no status is written — only possible when no order record exists. -/
def udiCreationStatusUpdate (hasUser3fa hasOrders3fa hasOrderDbId : Bool)
    (issuance : Except Unit IssueResults) : Option OrderStatus :=
  if hasUser3fa && hasOrders3fa && hasOrderDbId then
    match issuance with
    | Except.ok r =>
      if r.failed = 0 then some OrderStatus.COMPLETED
      else if r.created > 0 then some OrderStatus.PARTIALLY_COMPLETED
      else some OrderStatus.FAILED_UDI_CREATION
    | Except.error _ => some OrderStatus.FAILED_UDI_CREATION_ERROR
  else if hasOrders3fa then some OrderStatus.FAILED_PREREQUISITES_FOR_UDI
  else none

/-! ### Auxiliary definitions for the statements -/

/-- First entry of an optional-string list that is neither null nor empty. -/
def firstNonEmpty : List (Option String) → Option String
  | [] => none
  | none :: rest => firstNonEmpty rest
  | some s :: rest => if s = "" then firstNonEmpty rest else some s

/-- First entry of an optional-string list that is not null (an empty string wins). -/
def firstNonNull : List (Option String) → Option String
  | [] => none
  | none :: rest => firstNonNull rest
  | some s :: _ => some s

/-- The phone lookup locations of the handler, in priority order. -/
def phoneLocations (p : PayloadOrder) : List (Option String) :=
  [p.phone, p.shipping_address.bind (fun a => a.phone),
   p.billing_address.bind (fun a => a.phone), p.customer.bind (fun c => c.phone)]

/-- The phone extraction as the spec words it — the first NON-EMPTY value among the
prioritized locations wins.  Stated from the spec's words, for comparison with the
implementation's `customerPhoneOf` (which is nullish-coalescing, not non-empty). -/
def specPhoneExtract (p : PayloadOrder) : Option String :=
  firstNonEmpty (phoneLocations p)

/-- State reached by the unit-creation loop whether it returned or raised. -/
def stateOf : Except IssueState IssueState → IssueState
  | Except.ok st => st
  | Except.error st => st

/-- The line item's variant reference resolves (truthy reference, variant row found for
the shop, brand linkage present): the conditions under which the unit loop is entered. -/
def resolvesVariant (vars : List CoreProductVariant) (shopId : String)
    (li : LineItemInput) : Prop :=
  ∃ v cv b, li.variantId = some v ∧ v ≠ 0 ∧ findVariant vars shopId v = some cv ∧
    truthyStr cv.brand_3fa_id = some b

/-- Store evolution contract of the issuer: keys only get appended, variants are
untouched, and key uniqueness is preserved. -/
def KeysOk (db1 db2 : Db) : Prop :=
  (∃ l, udiKeys db2 = udiKeys db1 ++ l) ∧ db2.variants = db1.variants ∧
    ((udiKeys db1).Nodup → (udiKeys db2).Nodup)

/-- Two issuer states that agree on everything the control flow can observe: the
aggregate counts, the key set, and the variant table.  Record contents (statuses,
transaction hashes, owners) may differ. -/
def SimState (s t : IssueState) : Prop :=
  s.results.created = t.results.created ∧ s.results.failed = t.results.failed ∧
    udiKeys s.db = udiKeys t.db ∧ s.db.variants = t.db.variants

/-- `SimState` lifted to the unit loop's outcome: the two runs take the same branch. -/
def SimExc : Except IssueState IssueState → Except IssueState IssueState → Prop
  | Except.ok s, Except.ok t => SimState s t
  | Except.error s, Except.error t => SimState s t
  | _, _ => False

/-- The first candidate call shape: `mintTo(address to, string uri)`. -/
def mintToCall (ca recipient url : String) : MintCall :=
  { contractAddress := ca
    method := "function mintTo(address to, string uri) returns (uint256 tokenId)"
    recipient := recipient, metadataUrl := url }

/-- The second candidate call shape: `safeMint(address to, string uri)`. -/
def safeMintCall (ca recipient url : String) : MintCall :=
  { contractAddress := ca, method := "function safeMint(address to, string uri)"
    recipient := recipient, metadataUrl := url }

/-- The contract address the coordinator resolves for a record: record value, else the
variant default, else the process-wide fallback (JS `||`, then `|| undefined`). -/
def resolvedContractAddress (env : Env) (db : Db) (udi : UniqueDigitalId) :
    Option String :=
  truthyStr (jsOrStr udi.contractAddress
    (jsOrStr ((db.variants.find? (fun v => v.id = udi.coreProductVariantId)).bind
      (fun v => v.defaultSmartContractAddress)) env.DEFAULT_CONTRACT_ADDRESS))

/-! ### Concrete scenario constants (used by counterexamples and witnesses) -/

/-- A chain where the first candidate method reverts and the second succeeds. -/
def exOracleFallback : ChainOracle := fun c =>
  if c.method = "function safeMint(address to, string uri)" then
    Except.ok { transactionHash := some "0xabc" }
  else Except.error "execution reverted"

/-- A chain where every call reverts. -/
def exOracleFail : ChainOracle := fun _ => Except.error "execution reverted"

def exEnvNone : Env :=
  { BASE_MINTER_PRIVATE_KEY := none, THIRDWEB_CLIENT_ID := none,
    APP_BASE_URL := none, DEFAULT_CONTRACT_ADDRESS := none, BASE_CHAIN_ID := none }

def exEnvFull : Env :=
  { BASE_MINTER_PRIVATE_KEY :=
      some "0123456789012345678901234567890123456789012345678901234567890123",
    THIRDWEB_CLIENT_ID := some "cid", APP_BASE_URL := some "https://app.example.com/",
    DEFAULT_CONTRACT_ADDRESS := none, BASE_CHAIN_ID := some "8453" }

def exVariant : CoreProductVariant :=
  { id := "cpv-1", shopifyVariantGid := variantGid 501,
    myshopify_domain := "shop1.myshopify.com",
    brand_3fa_id := some "brand-1", defaultSmartContractAddress := some "0xC0" }

def exVariant2 : CoreProductVariant :=
  { id := "cpv-2", shopifyVariantGid := variantGid 502,
    myshopify_domain := "shop1.myshopify.com",
    brand_3fa_id := some "brand-1", defaultSmartContractAddress := some "0xC0" }

def exDb : Db := { udis := [], nextUdiId := 1, variants := [exVariant] }

def exDb2 : Db := { udis := [], nextUdiId := 1, variants := [exVariant, exVariant2] }

def exItem : LineItemInput :=
  { id := "li-1", shopifyId := 9001, variantId := some 501, quantity := 3 }

/-- Three quantity-one line items: two resolvable, one whose variant is unknown. -/
def exItemA : LineItemInput :=
  { id := "li-a", shopifyId := 9001, variantId := some 501, quantity := 1 }
def exItemB : LineItemInput :=
  { id := "li-b", shopifyId := 9002, variantId := some 502, quantity := 1 }
def exItemC : LineItemInput :=
  { id := "li-c", shopifyId := 9003, variantId := some 999, quantity := 1 }

/-- A line item with no variant reference at all. -/
def exItemNoVariant : LineItemInput :=
  { id := "li-nv", shopifyId := 9100, variantId := none, quantity := 2 }

def exArgsOf (items : List LineItemInput) : IssueArgs :=
  { shopId := "shop1.myshopify.com", shopifyOrderId := "1001",
    lineItems := items, owner3faId := "u1", privyWalletAddress := some "0xW",
    privyDid := some "did:privy:1", orders3faId := "o1" }

def exUdi : UniqueDigitalId :=
  { id := 7, coreProductVariantId := "cpv-1",
    myshopify_domain := "shop1.myshopify.com", brand_3fa_id := "brand-1",
    shopifyOrderId := "gid://shopify/Order/1001",
    shopifyLineItemId := "gid://shopify/LineItem/9001",
    owner3faId := "u1", orders3faId := "o1", privyWalletAddress := some "0xW",
    privyDid := some "did:privy:1", status := UdiStatus.CREATED,
    contractAddress := some "0xC0",
    transactionHash := none, blockchain := none, mintedAt := false }

def exUdiDb : Db := { udis := [exUdi], nextUdiId := 8, variants := [exVariant] }

def exState0 : IntakeState := { events := [], nextEventId := 1, jobs := [] }

def exIssueState0 : IssueState :=
  { results := { created := 0, failed := 0, digitalIds := [] }, db := exDb, trace := [] }

/-- Payload with a phone in the direct field. -/
def exPayload : PayloadOrder :=
  { id := some 1001, phone := some "15550001111", shipping_address := none,
    billing_address := none, customer := none }

/-- Payload whose direct phone field is present but empty while the shipping address
carries a non-empty phone. -/
def exPayloadEmptyPhone : PayloadOrder :=
  { id := some 2002, phone := some "",
    shipping_address := some { phone := some "15550002222" },
    billing_address := none, customer := none }

/-! ### Store-evolution lemmas for the minting path -/

theorem udiUpdate_variants (db : Db) (id : Nat) (f : UniqueDigitalId → UniqueDigitalId) :
    (udiUpdate db id f).variants = db.variants := rfl

theorem udiUpdate_nextUdiId (db : Db) (id : Nat) (f : UniqueDigitalId → UniqueDigitalId) :
    (udiUpdate db id f).nextUdiId = db.nextUdiId := rfl

theorem udiUpdate_keys (db : Db) (id : Nat) (f : UniqueDigitalId → UniqueDigitalId)
    (hf : ∀ u, (f u).shopifyLineItemId = u.shopifyLineItemId) :
    udiKeys (udiUpdate db id f) = udiKeys db := by
  simp only [udiKeys, udiUpdate, List.map_map]
  apply List.map_congr_left
  intro u _
  by_cases h : u.id = id <;> simp [h, hf]

/-- After updating record `id` with an `f` that preserves ids and writes a status other
than `CREATED`, no record with that id is at `CREATED`. -/
theorem udiUpdate_no_created (db : Db) (id : Nat) (f : UniqueDigitalId → UniqueDigitalId)
    (hid : ∀ u, (f u).id = u.id) (hst : ∀ u, (f u).status ≠ UdiStatus.CREATED) :
    ((udiUpdate db id f).udis.all
      (fun u => !(u.id == id) || !(u.status == UdiStatus.CREATED))) = true := by
  simp only [udiUpdate, List.all_map, List.all_eq_true]
  intro u _
  by_cases h : u.id = id
  · simp only [h, if_pos rfl, Function.comp]
    have h1 := hst u
    have h2 := hid u
    simp [h, h2, h1]
  · simp [Function.comp, h]

theorem mintDigitalIdOnBase_variants (env : Env) (oracle : ChainOracle) (db : Db) (id : Nat) :
    (mintDigitalIdOnBase env oracle db id).2.1.variants = db.variants := by
  unfold mintDigitalIdOnBase mintFail
  dsimp only
  repeat' split
  all_goals rfl

theorem mintDigitalIdOnBase_nextUdiId (env : Env) (oracle : ChainOracle) (db : Db) (id : Nat) :
    (mintDigitalIdOnBase env oracle db id).2.1.nextUdiId = db.nextUdiId := by
  unfold mintDigitalIdOnBase mintFail
  dsimp only
  repeat' split
  all_goals rfl

theorem mintDigitalIdOnBase_keys (env : Env) (oracle : ChainOracle) (db : Db) (id : Nat) :
    udiKeys (mintDigitalIdOnBase env oracle db id).2.1 = udiKeys db := by
  unfold mintDigitalIdOnBase mintFail
  dsimp only
  repeat' split
  all_goals (apply udiUpdate_keys; intro u; rfl)

theorem queueTokenMinting_variants (env : Env) (oracle : ChainOracle) (db : Db) (id : Nat) :
    (queueTokenMinting env oracle db id).1.variants = db.variants := by
  unfold queueTokenMinting
  split
  · rfl
  · rw [mintDigitalIdOnBase_variants]
    rfl

theorem queueTokenMinting_nextUdiId (env : Env) (oracle : ChainOracle) (db : Db) (id : Nat) :
    (queueTokenMinting env oracle db id).1.nextUdiId = db.nextUdiId := by
  unfold queueTokenMinting
  split
  · rfl
  · rw [mintDigitalIdOnBase_nextUdiId]
    rfl

theorem queueTokenMinting_keys (env : Env) (oracle : ChainOracle) (db : Db) (id : Nat) :
    udiKeys (queueTokenMinting env oracle db id).1 = udiKeys db := by
  unfold queueTokenMinting
  split
  · apply udiUpdate_keys
    intro u
    rfl
  · rw [mintDigitalIdOnBase_keys, udiUpdate_keys]
    intro u
    rfl

/-! ### Trace lemmas for the minting path -/

theorem tryMintLoop_trace_chainCalls (oracle : ChainOracle) (ca r url : String)
    (ms : List String) (le : Option String) :
    ((tryMintLoop oracle ca r url ms le).2.2.all
      (fun e => match e with | MintEvent.chainCall _ => true | _ => false)) = true := by
  induction ms generalizing le with
  | nil => rfl
  | cons m rest ih =>
    unfold tryMintLoop
    dsimp only
    split
    · rfl
    · rename_i e he
      simp only [List.all_cons]
      rw [ih (some e)]
      rfl

theorem mintDigitalIdOnBase_trace_no_created (env : Env) (oracle : ChainOracle)
    (db : Db) (id : Nat) :
    ((mintDigitalIdOnBase env oracle db id).2.2.all
      (fun e => !(statusWritten e == some UdiStatus.CREATED))) = true := by
  have hloop : ∀ ca r url ms le, ((tryMintLoop oracle ca r url ms le).2.2.all
      (fun e => !(statusWritten e == some UdiStatus.CREATED))) = true := by
    intro ca r url ms le
    have h := tryMintLoop_trace_chainCalls oracle ca r url ms le
    rw [List.all_eq_true] at h ⊢
    intro e he
    have := h e he
    cases e <;> simp_all [statusWritten]
  unfold mintDigitalIdOnBase mintFail
  dsimp only
  repeat' split
  all_goals
    first
    | rfl
    | (rw [List.all_append, hloop]; rfl)

/-- No record with the minted id is left at `CREATED` by `mintDigitalIdOnBase`. -/
theorem mintDigitalIdOnBase_db_no_created (env : Env) (oracle : ChainOracle)
    (db : Db) (id : Nat) :
    ((mintDigitalIdOnBase env oracle db id).2.1.udis.all
      (fun u => !(u.id == id) || !(u.status == UdiStatus.CREATED))) = true := by
  unfold mintDigitalIdOnBase mintFail
  dsimp only
  repeat' split
  all_goals (apply udiUpdate_no_created <;> intro u <;> simp)

/-! ### `KeysOk`: the issuer's store evolution -/

theorem keysOk_refl (db : Db) : KeysOk db db :=
  ⟨⟨[], by simp⟩, rfl, fun h => h⟩

theorem keysOk_trans {db1 db2 db3 : Db} (h1 : KeysOk db1 db2) (h2 : KeysOk db2 db3) :
    KeysOk db1 db3 := by
  obtain ⟨⟨l1, hl1⟩, hv1, hn1⟩ := h1
  obtain ⟨⟨l2, hl2⟩, hv2, hn2⟩ := h2
  exact ⟨⟨l1 ++ l2, by rw [hl2, hl1, List.append_assoc]⟩, hv2.trans hv1,
    fun h => hn2 (hn1 h)⟩

theorem keysOk_mem {db1 db2 : Db} (h : KeysOk db1 db2) {k : String}
    (hk : k ∈ udiKeys db1) : k ∈ udiKeys db2 := by
  obtain ⟨⟨l, hl⟩, _, _⟩ := h
  rw [hl]
  exact List.mem_append_left l hk

theorem queueTokenMinting_keysOk (env : Env) (oracle : ChainOracle) (db : Db) (id : Nat) :
    KeysOk db (queueTokenMinting env oracle db id).1 := by
  refine ⟨⟨[], ?_⟩, ?_, ?_⟩
  · rw [queueTokenMinting_keys]
    simp
  · exact queueTokenMinting_variants env oracle db id
  · intro h
    rw [queueTokenMinting_keys]
    exact h

/-- A successful `create` appends the row: the new key is recorded and freshness is
checked, so uniqueness is preserved. -/
theorem udiCreate_ok_spec (db : Db) (d : UdiData) (u : UniqueDigitalId) (db1 : Db)
    (h : udiCreate db d = Except.ok (u, db1)) :
    u.shopifyLineItemId = d.shopifyLineItemId ∧ u.status = d.status ∧ u.id = db.nextUdiId ∧
    udiKeys db1 = udiKeys db ++ [d.shopifyLineItemId] ∧
    db1.variants = db.variants ∧ db1.nextUdiId = db.nextUdiId + 1 ∧
    d.shopifyLineItemId ∉ udiKeys db := by
  unfold udiCreate at h
  split at h
  · exact absurd h (by simp)
  · rename_i hany
    injection h with h
    injection h with hu hdb
    subst hu hdb
    refine ⟨rfl, rfl, rfl, ?_, rfl, rfl, ?_⟩
    · simp [udiKeys]
    · intro hmem
      apply hany
      rw [List.any_eq_true]
      simp only [udiKeys, List.mem_map] at hmem
      obtain ⟨w, hw, hwk⟩ := hmem
      exact ⟨w, hw, by simp [hwk]⟩

/-- A `create` raises exactly when the key is already present. -/
theorem udiCreate_error_iff (db : Db) (d : UdiData) :
    udiCreate db d = Except.error () ↔ d.shopifyLineItemId ∈ udiKeys db := by
  unfold udiCreate
  constructor
  · intro h
    split at h
    · rename_i hany
      rw [List.any_eq_true] at hany
      obtain ⟨u, hu, huk⟩ := hany
      simp only [beq_iff_eq] at huk
      simp only [udiKeys, List.mem_map]
      exact ⟨u, hu, huk⟩
    · exact absurd h (by simp)
  · intro h
    simp only [udiKeys, List.mem_map] at h
    obtain ⟨u, hu, huk⟩ := h
    rw [if_pos]
    rw [List.any_eq_true]
    exact ⟨u, hu, by simp [huk]⟩

/-! ### Unit-loop lemmas -/

theorem unitData_key (env : Env) (a : IssueArgs) (cv : CoreProductVariant) (b : String)
    (li : LineItemInput) (i : Nat) :
    (unitData env a cv b li i).shopifyLineItemId = unitKey li.shopifyId li.quantity i := rfl

theorem keysOk_of_append_fresh {db1 db2 : Db} {k : String}
    (h : udiKeys db2 = udiKeys db1 ++ [k]) (hv : db2.variants = db1.variants)
    (hfresh : k ∉ udiKeys db1) : KeysOk db1 db2 := by
  refine ⟨⟨[k], h⟩, hv, ?_⟩
  intro hnd
  rw [h, List.nodup_append]
  exact ⟨hnd, List.nodup_singleton k, by
    intro x hx hxk
    rw [List.mem_singleton] at hxk
    exact hfresh (hxk ▸ hx)⟩

theorem createUnits_keysOk (env : Env) (oracle : ChainOracle) (a : IssueArgs)
    (cv : CoreProductVariant) (b : String) (li : LineItemInput) :
    ∀ (l : List Nat) (st : IssueState),
      KeysOk st.db (stateOf (createUnits env oracle a cv b li l st)).db := by
  intro l
  induction l with
  | nil =>
    intro st
    exact keysOk_refl _
  | cons i rest ih =>
    intro st
    unfold createUnits
    dsimp only
    split
    · exact keysOk_refl _
    · rename_i digitalId db1 heq
      obtain ⟨hk, hs, hid, hkeys, hvars, hnext, hfresh⟩ := udiCreate_ok_spec _ _ _ _ heq
      refine keysOk_trans (keysOk_of_append_fresh hkeys hvars hfresh) ?_
      refine keysOk_trans (queueTokenMinting_keysOk env oracle db1 digitalId.id) ?_
      exact ih _

theorem createUnits_head_dup (env : Env) (oracle : ChainOracle) (a : IssueArgs)
    (cv : CoreProductVariant) (b : String) (li : LineItemInput) (i : Nat) (rest : List Nat)
    (st : IssueState) (h : unitKey li.shopifyId li.quantity i ∈ udiKeys st.db) :
    createUnits env oracle a cv b li (i :: rest) st = Except.error st := by
  unfold createUnits
  have hcr : udiCreate st.db (unitData env a cv b li i) = Except.error () :=
    (udiCreate_error_iff _ _).mpr (by rw [unitData_key]; exact h)
  rw [hcr]

theorem createUnits_head_key (env : Env) (oracle : ChainOracle) (a : IssueArgs)
    (cv : CoreProductVariant) (b : String) (li : LineItemInput) (i : Nat) (rest : List Nat)
    (st : IssueState) :
    unitKey li.shopifyId li.quantity i ∈
      udiKeys (stateOf (createUnits env oracle a cv b li (i :: rest) st)).db := by
  unfold createUnits
  dsimp only
  split
  · rename_i u heq
    cases u
    have hmem := (udiCreate_error_iff st.db (unitData env a cv b li i)).mp heq
    rw [unitData_key] at hmem
    exact hmem
  · rename_i digitalId db1 heq
    obtain ⟨hk, hs, hid, hkeys, hvars, hnext, hfresh⟩ := udiCreate_ok_spec _ _ _ _ heq
    have h1 : unitKey li.shopifyId li.quantity i ∈ udiKeys db1 := by
      rw [hkeys, unitData_key]
      simp
    have h2 : unitKey li.shopifyId li.quantity i ∈
        udiKeys (queueTokenMinting env oracle db1 digitalId.id).1 := by
      rw [queueTokenMinting_keys]
      exact h1
    exact keysOk_mem (createUnits_keysOk env oracle a cv b li rest _) h2

/-! ### Line-item-level lemmas -/

theorem processLineItem_keysOk (env : Env) (oracle : ChainOracle) (a : IssueArgs)
    (st : IssueState) (li : LineItemInput) :
    KeysOk st.db (processLineItem env oracle a st li).db := by
  unfold processLineItem
  split
  · exact keysOk_refl _
  · split
    · exact keysOk_refl _
    · split
      · exact keysOk_refl _
      · rename_i cv hcv
        split
        · exact keysOk_refl _
        · rename_i bb hb
          split
          · rename_i stOut hout
            have h1 := createUnits_keysOk env oracle a cv bb li (List.range li.quantity) st
            rw [hout] at h1
            exact h1
          · rename_i stC hC
            have h1 := createUnits_keysOk env oracle a cv bb li (List.range li.quantity) st
            rw [hC] at h1
            exact h1

theorem processLineItem_key0 (env : Env) (oracle : ChainOracle) (a : IssueArgs)
    (st : IssueState) (li : LineItemInput)
    (hres : resolvesVariant st.db.variants a.shopId li) (hq : 1 ≤ li.quantity) :
    unitKey li.shopifyId li.quantity 0 ∈
      udiKeys (processLineItem env oracle a st li).db := by
  obtain ⟨v, cv, bb, hv, hv0, hfind, hb⟩ := hres
  obtain ⟨n, hn⟩ : ∃ n, li.quantity = n + 1 := ⟨li.quantity - 1, by omega⟩
  have hrange : List.range li.quantity = 0 :: List.map Nat.succ (List.range n) := by
    rw [hn, List.range_succ_eq_map]
  unfold processLineItem
  rw [hv]
  dsimp only
  rw [if_neg hv0, hfind]
  dsimp only
  rw [hb]
  dsimp only
  rw [hrange]
  have hkey := createUnits_head_key env oracle a cv bb li 0 (List.map Nat.succ (List.range n)) st
  split
  · rename_i stOut hout
    rw [hout] at hkey
    exact hkey
  · rename_i stC hC
    rw [hC] at hkey
    exact hkey

theorem processLineItem_noop (env : Env) (oracle : ChainOracle) (a : IssueArgs)
    (st : IssueState) (li : LineItemInput)
    (h : resolvesVariant st.db.variants a.shopId li → 1 ≤ li.quantity →
         unitKey li.shopifyId li.quantity 0 ∈ udiKeys st.db) :
    (processLineItem env oracle a st li).db = st.db ∧
    (processLineItem env oracle a st li).results.created = st.results.created ∧
    (processLineItem env oracle a st li).results.digitalIds = st.results.digitalIds ∧
    (processLineItem env oracle a st li).trace = st.trace := by
  unfold processLineItem
  split
  · exact ⟨rfl, rfl, rfl, rfl⟩
  · rename_i v hv
    split
    · exact ⟨rfl, rfl, rfl, rfl⟩
    · rename_i hv0
      split
      · exact ⟨rfl, rfl, rfl, rfl⟩
      · rename_i cv hcv
        split
        · exact ⟨rfl, rfl, rfl, rfl⟩
        · rename_i bb hb
          have hres : resolvesVariant st.db.variants a.shopId li :=
            ⟨v, cv, bb, hv, hv0, hcv, hb⟩
          by_cases hq : 1 ≤ li.quantity
          · have hkey := h hres hq
            obtain ⟨n, hn⟩ : ∃ n, li.quantity = n + 1 := ⟨li.quantity - 1, by omega⟩
            have hrange : List.range li.quantity = 0 :: List.map Nat.succ (List.range n) := by
              rw [hn, List.range_succ_eq_map]
            have hdup := createUnits_head_dup env oracle a cv bb li 0
              (List.map Nat.succ (List.range n)) st hkey
            rw [hrange, hdup]
            exact ⟨rfl, rfl, rfl, rfl⟩
          · have hq0 : li.quantity = 0 := by omega
            rw [hq0]
            simp only [List.range_zero]
            exact ⟨rfl, rfl, rfl, rfl⟩

/-! ### Batch-level lemmas -/

theorem processLineItems_cons (env : Env) (oracle : ChainOracle) (a : IssueArgs)
    (li : LineItemInput) (rest : List LineItemInput) (st : IssueState) :
    processLineItems env oracle a (li :: rest) st =
      processLineItems env oracle a rest (processLineItem env oracle a st li) := rfl

theorem processLineItems_keysOk (env : Env) (oracle : ChainOracle) (a : IssueArgs) :
    ∀ (items : List LineItemInput) (st : IssueState),
      KeysOk st.db (processLineItems env oracle a items st).db := by
  intro items
  induction items with
  | nil =>
    intro st
    exact keysOk_refl _
  | cons hd tl ih =>
    intro st
    rw [processLineItems_cons]
    exact keysOk_trans (processLineItem_keysOk env oracle a st hd) (ih _)

theorem processLineItems_key0 (env : Env) (oracle : ChainOracle) (a : IssueArgs) :
    ∀ (items : List LineItemInput) (st : IssueState) (li : LineItemInput),
      li ∈ items → resolvesVariant st.db.variants a.shopId li → 1 ≤ li.quantity →
      unitKey li.shopifyId li.quantity 0 ∈
        udiKeys (processLineItems env oracle a items st).db := by
  intro items
  induction items with
  | nil =>
    intro st li hmem
    exact absurd hmem (List.not_mem_nil li)
  | cons hd tl ih =>
    intro st li hmem hres hq
    rw [processLineItems_cons]
    rcases List.mem_cons.mp hmem with hEq | hmem2
    · subst hEq
      exact keysOk_mem (processLineItems_keysOk env oracle a tl _)
        (processLineItem_key0 env oracle a st li hres hq)
    · have hv : (processLineItem env oracle a st hd).db.variants = st.db.variants :=
        (processLineItem_keysOk env oracle a st hd).2.1
      exact ih _ li hmem2 (by rw [hv]; exact hres) hq

theorem processLineItems_noop (env : Env) (oracle : ChainOracle) (a : IssueArgs) :
    ∀ (items : List LineItemInput) (st : IssueState),
      (∀ li ∈ items, resolvesVariant st.db.variants a.shopId li → 1 ≤ li.quantity →
        unitKey li.shopifyId li.quantity 0 ∈ udiKeys st.db) →
      (processLineItems env oracle a items st).db = st.db ∧
      (processLineItems env oracle a items st).results.created = st.results.created ∧
      (processLineItems env oracle a items st).results.digitalIds =
        st.results.digitalIds ∧
      (processLineItems env oracle a items st).trace = st.trace := by
  intro items
  induction items with
  | nil =>
    intro st _
    exact ⟨rfl, rfl, rfl, rfl⟩
  | cons hd tl ih =>
    intro st H
    obtain ⟨hdb, hcr, hdi, htr⟩ := processLineItem_noop env oracle a st hd
      (H hd (List.mem_cons_self hd tl))
    rw [processLineItems_cons]
    have Htl : ∀ li ∈ tl,
        resolvesVariant (processLineItem env oracle a st hd).db.variants a.shopId li →
        1 ≤ li.quantity →
        unitKey li.shopifyId li.quantity 0 ∈
          udiKeys (processLineItem env oracle a st hd).db := by
      intro li hmem hres hq
      rw [hdb] at hres ⊢
      exact H li (List.mem_cons_of_mem hd hmem) hres hq
    obtain ⟨hdb2, hcr2, hdi2, htr2⟩ := ih (processLineItem env oracle a st hd) Htl
    exact ⟨hdb2.trans hdb, hcr2.trans hcr, hdi2.trans hdi, htr2.trans htr⟩

/-! ### Exact specification of a fresh unit loop (quantity expansion) -/

theorem unitKey_inj (sid q : Nat) {i j : Nat} (hi : i < q) (hj : j < q)
    (h : unitKey sid q i = unitKey sid q j) : i = j := by
  unfold unitKey at h
  by_cases hq : q > 1
  · rw [if_pos hq, if_pos hq] at h
    have h2 := string_append_left_cancel h
    have h3 := natRepr_injective h2
    omega
  · omega

theorem createUnits_spec (env : Env) (oracle : ChainOracle) (a : IssueArgs)
    (cv : CoreProductVariant) (b : String) (li : LineItemInput) :
    ∀ (l : List Nat) (st : IssueState),
      (∀ i ∈ l, unitKey li.shopifyId li.quantity i ∉ udiKeys st.db) →
      (∀ i ∈ l, ∀ j ∈ l,
        unitKey li.shopifyId li.quantity i = unitKey li.shopifyId li.quantity j → i = j) →
      l.Nodup →
      ∃ stOut, createUnits env oracle a cv b li l st = Except.ok stOut ∧
        stOut.results.created = st.results.created + l.length ∧
        stOut.results.failed = st.results.failed ∧
        (∃ recs, stOut.results.digitalIds = st.results.digitalIds ++ recs ∧
          recs.map (fun u => u.shopifyLineItemId) =
            l.map (unitKey li.shopifyId li.quantity) ∧
          ∀ u ∈ recs, u.status = UdiStatus.CREATED) ∧
        udiKeys stOut.db = udiKeys st.db ++ l.map (unitKey li.shopifyId li.quantity) := by
  intro l
  induction l with
  | nil =>
    intro st _ _ _
    exact ⟨st, rfl, by simp, rfl, ⟨[], by simp, by simp, by simp⟩, by simp⟩
  | cons i rest ih =>
    intro st hfresh hinj hnd
    have hkey_fresh : unitKey li.shopifyId li.quantity i ∉ udiKeys st.db :=
      hfresh i (List.mem_cons_self i rest)
    cases hcr : udiCreate st.db (unitData env a cv b li i) with
    | error u =>
      cases u
      have := (udiCreate_error_iff st.db (unitData env a cv b li i)).mp hcr
      rw [unitData_key] at this
      exact absurd this hkey_fresh
    | ok p =>
      obtain ⟨digitalId, db1⟩ := p
      obtain ⟨hk, hs, hid, hkeys, hvars, hnext, hfr⟩ := udiCreate_ok_spec _ _ _ _ hcr
      rw [unitData_key] at hkeys hk
      have hstatus : digitalId.status = UdiStatus.CREATED := hs
      -- the state passed to the recursive call
      set st1 : IssueState :=
        { results := { created := st.results.created + 1, failed := st.results.failed
                       digitalIds := st.results.digitalIds ++ [digitalId] }
          db := (queueTokenMinting env oracle db1 digitalId.id).1
          trace := st.trace ++ (queueTokenMinting env oracle db1 digitalId.id).2 }
        with hst1
      have hkeys1 : udiKeys st1.db = udiKeys st.db ++ [unitKey li.shopifyId li.quantity i] := by
        rw [hst1]
        dsimp only
        rw [queueTokenMinting_keys]
        exact hkeys
      have hfresh1 : ∀ j ∈ rest, unitKey li.shopifyId li.quantity j ∉ udiKeys st1.db := by
        intro j hj hmem
        rw [hkeys1, List.mem_append] at hmem
        rcases hmem with hmem | hmem
        · exact hfresh j (List.mem_cons_of_mem i hj) hmem
        · rw [List.mem_singleton] at hmem
          have hji : j = i := hinj j (List.mem_cons_of_mem i hj) i
            (List.mem_cons_self i rest) hmem
          have : i ∈ rest := hji ▸ hj
          exact (List.nodup_cons.mp hnd).1 this
      obtain ⟨stOut, hrun, hcre, hfail, ⟨recs, hdi, hdkeys, hdst⟩, hok⟩ :=
        ih st1 hfresh1
          (fun x hx y hy => hinj x (List.mem_cons_of_mem i hx) y (List.mem_cons_of_mem i hy))
          (List.nodup_cons.mp hnd).2
      refine ⟨stOut, ?_, ?_, ?_, ⟨digitalId :: recs, ?_, ?_, ?_⟩, ?_⟩
      · unfold createUnits
        rw [hcr]
        exact hrun
      · rw [hcre]
        simp only [hst1, List.length_cons]
        omega
      · rw [hfail]
      · rw [hdi, hst1]
        simp
      · simp only [List.map_cons, hk, hdkeys]
      · intro u hu
        rcases List.mem_cons.mp hu with hEq | hu2
        · rw [hEq]
          exact hstatus
        · exact hdst u hu2
      · rw [hok, hkeys1, List.map_cons, List.append_assoc]
        rfl

/-! ### Simulation: the issuance control flow ignores minting outcomes -/

theorem simState_addFailed {s t : IssueState} (h : SimState s t) (q : Nat) :
    SimState (addFailed s q) (addFailed t q) := by
  obtain ⟨h1, h2, h3, h4⟩ := h
  exact ⟨h1, by simp [addFailed, h2], h3, h4⟩

theorem createUnits_sim (env1 env2 : Env) (oracle1 oracle2 : ChainOracle) (a : IssueArgs)
    (cv : CoreProductVariant) (b : String) (li : LineItemInput) :
    ∀ (l : List Nat) (s t : IssueState), SimState s t →
      SimExc (createUnits env1 oracle1 a cv b li l s)
             (createUnits env2 oracle2 a cv b li l t) := by
  intro l
  induction l with
  | nil =>
    intro s t h
    exact h
  | cons i rest ih =>
    intro s t h
    obtain ⟨hcr, hf, hk, hv⟩ := h
    unfold createUnits
    cases hcr1 : udiCreate s.db (unitData env1 a cv b li i) with
    | error u =>
      cases u
      have hmem : (unitData env1 a cv b li i).shopifyLineItemId ∈ udiKeys s.db :=
        (udiCreate_error_iff _ _).mp hcr1
      have hmem2 : (unitData env2 a cv b li i).shopifyLineItemId ∈ udiKeys t.db := by
        rw [unitData_key] at hmem ⊢
        rw [← hk]
        exact hmem
      have hcr2 : udiCreate t.db (unitData env2 a cv b li i) = Except.error () :=
        (udiCreate_error_iff _ _).mpr hmem2
      rw [hcr2]
      exact ⟨hcr, hf, hk, hv⟩
    | ok p =>
      obtain ⟨u1, db1⟩ := p
      obtain ⟨hk1, hs1, hid1, hkeys1, hvars1, hnext1, hfr1⟩ := udiCreate_ok_spec _ _ _ _ hcr1
      have hfr2 : (unitData env2 a cv b li i).shopifyLineItemId ∉ udiKeys t.db := by
        rw [unitData_key] at hfr1 ⊢
        rw [← hk]
        exact hfr1
      cases hcr2 : udiCreate t.db (unitData env2 a cv b li i) with
      | error u =>
        cases u
        have := (udiCreate_error_iff _ _).mp hcr2
        exact absurd this hfr2
      | ok q =>
        obtain ⟨u2, db2⟩ := q
        obtain ⟨hk2, hs2, hid2, hkeys2, hvars2, hnext2, hfr2b⟩ := udiCreate_ok_spec _ _ _ _ hcr2
        apply ih
        refine ⟨by simp [hcr], by simp [hf], ?_, ?_⟩
        · dsimp only
          rw [queueTokenMinting_keys, queueTokenMinting_keys, hkeys1, hkeys2,
            unitData_key, unitData_key, hk]
        · dsimp only
          rw [queueTokenMinting_variants, queueTokenMinting_variants, hvars1, hvars2]
          exact hv

theorem processLineItem_sim (env1 env2 : Env) (oracle1 oracle2 : ChainOracle)
    (a : IssueArgs) (li : LineItemInput) {s t : IssueState} (h : SimState s t) :
    SimState (processLineItem env1 oracle1 a s li) (processLineItem env2 oracle2 a t li) := by
  obtain ⟨hcr, hf, hk, hv⟩ := h
  unfold processLineItem
  cases hvi : li.variantId with
  | none => exact ⟨hcr, hf, hk, hv⟩
  | some v =>
    dsimp only
    by_cases hv0 : v = 0
    · rw [if_pos hv0, if_pos hv0]
      exact ⟨hcr, hf, hk, hv⟩
    · rw [if_neg hv0, if_neg hv0, ← hv]
      cases hfd : findVariant s.db.variants a.shopId v with
      | none => exact simState_addFailed ⟨hcr, hf, hk, hv⟩ li.quantity
      | some cv =>
        dsimp only
        cases hb : truthyStr cv.brand_3fa_id with
        | none => exact simState_addFailed ⟨hcr, hf, hk, hv⟩ li.quantity
        | some bb =>
          dsimp only
          have hsim := createUnits_sim env1 env2 oracle1 oracle2 a cv bb li
            (List.range li.quantity) s t ⟨hcr, hf, hk, hv⟩
          cases hr1 : createUnits env1 oracle1 a cv bb li (List.range li.quantity) s with
          | ok s1 =>
            cases hr2 : createUnits env2 oracle2 a cv bb li (List.range li.quantity) t with
            | ok t1 =>
              rw [hr1, hr2] at hsim
              exact hsim
            | error t1 =>
              rw [hr1, hr2] at hsim
              exact absurd hsim (by simp [SimExc])
          | error s1 =>
            cases hr2 : createUnits env2 oracle2 a cv bb li (List.range li.quantity) t with
            | ok t1 =>
              rw [hr1, hr2] at hsim
              exact absurd hsim (by simp [SimExc])
            | error t1 =>
              rw [hr1, hr2] at hsim
              exact simState_addFailed hsim li.quantity

theorem processLineItems_sim (env1 env2 : Env) (oracle1 oracle2 : ChainOracle)
    (a : IssueArgs) :
    ∀ (items : List LineItemInput) {s t : IssueState}, SimState s t →
      SimState (processLineItems env1 oracle1 a items s)
               (processLineItems env2 oracle2 a items t) := by
  intro items
  induction items with
  | nil =>
    intro s t h
    exact h
  | cons hd tl ih =>
    intro s t h
    rw [processLineItems_cons, processLineItems_cons]
    exact ih (processLineItem_sim env1 env2 oracle1 oracle2 a hd h)

/-! ### Claim theorems -/

/-- C7: if any minting credential/configuration value (minter private key, client id,
or app base URL) is absent when minting is triggered, the record is left at status
`MINT_PENDING`, no external call (library import or chain call) is attempted, and the
trigger returns normally — a deliberate not-configured short-circuit distinct from
`MINT_FAILED`. -/
theorem mint_unconfigured_short_circuit (env : Env) (oracle : ChainOracle) (db : Db)
    (digitalIdId : Nat)
    (h : env.BASE_MINTER_PRIVATE_KEY = none ∨ env.THIRDWEB_CLIENT_ID = none ∨
         env.APP_BASE_URL = none) :
    queueTokenMinting env oracle db digitalIdId =
      (udiUpdate db digitalIdId (fun u => { u with status := UdiStatus.MINT_PENDING }),
       [MintEvent.setStatus digitalIdId UdiStatus.MINT_PENDING]) ∧
    (∀ c : MintCall, MintEvent.chainCall c ∉ (queueTokenMinting env oracle db digitalIdId).2) ∧
    MintEvent.importMintingLib ∉ (queueTokenMinting env oracle db digitalIdId).2 ∧
    (∀ u ∈ (queueTokenMinting env oracle db digitalIdId).1.udis,
      u.id = digitalIdId → u.status = UdiStatus.MINT_PENDING) := by
  have hcond : (isFalsyStr env.BASE_MINTER_PRIVATE_KEY || isFalsyStr env.THIRDWEB_CLIENT_ID ||
      isFalsyStr env.APP_BASE_URL) = true := by
    rcases h with h | h | h <;> simp [h, isFalsyStr]
  have hmain : queueTokenMinting env oracle db digitalIdId =
      (udiUpdate db digitalIdId (fun u => { u with status := UdiStatus.MINT_PENDING }),
       [MintEvent.setStatus digitalIdId UdiStatus.MINT_PENDING]) := by
    unfold queueTokenMinting
    rw [if_pos hcond]
  refine ⟨hmain, ?_, ?_, ?_⟩
  · intro c hc
    rw [hmain] at hc
    simp at hc
  · intro hc
    rw [hmain] at hc
    simp at hc
  · intro u hu huid
    rw [hmain] at hu
    simp only [udiUpdate, List.mem_map] at hu
    obtain ⟨orig, horig, hout⟩ := hu
    by_cases ho : orig.id = digitalIdId
    · rw [if_pos ho] at hout
      rw [← hout]
    · rw [if_neg ho] at hout
      rw [← hout] at huid
      exact absurd huid ho

/-- C7 witness: with the whole minting environment absent, a `CREATED` record stays at
`MINT_PENDING` and the trace holds no external call. -/
theorem mint_unconfigured_short_circuit_witness :
    queueTokenMinting exEnvNone exOracleFail exUdiDb 7 =
      (udiUpdate exUdiDb 7 (fun u => { u with status := UdiStatus.MINT_PENDING }),
       [MintEvent.setStatus 7 UdiStatus.MINT_PENDING]) ∧
    (∀ c : MintCall, MintEvent.chainCall c ∉ (queueTokenMinting exEnvNone exOracleFail exUdiDb 7).2) ∧
    MintEvent.importMintingLib ∉ (queueTokenMinting exEnvNone exOracleFail exUdiDb 7).2 ∧
    (∀ u ∈ (queueTokenMinting exEnvNone exOracleFail exUdiDb 7).1.udis,
      u.id = 7 → u.status = UdiStatus.MINT_PENDING) :=
  mint_unconfigured_short_circuit exEnvNone exOracleFail exUdiDb 7 (Or.inl rfl)

/-- C9: whenever minting is attempted for a digital identity, the very first store
write of the trigger sets its status to `MINT_PENDING`, before any external step
(library import or chain call); no later event ever writes `CREATED`, and no record
with the attempted id is left at `CREATED`. -/
theorem mint_pending_before_externals (env : Env) (oracle : ChainOracle) (db : Db)
    (digitalIdId : Nat) :
    (queueTokenMinting env oracle db digitalIdId).2.head? =
      some (MintEvent.setStatus digitalIdId UdiStatus.MINT_PENDING) ∧
    ((queueTokenMinting env oracle db digitalIdId).2.all
      (fun e => !(statusWritten e == some UdiStatus.CREATED))) = true ∧
    ((queueTokenMinting env oracle db digitalIdId).1.udis.all
      (fun u => !(u.id == digitalIdId) || !(u.status == UdiStatus.CREATED))) = true := by
  refine ⟨?_, ?_, ?_⟩
  · unfold queueTokenMinting
    dsimp only
    split <;> rfl
  · unfold queueTokenMinting
    dsimp only
    split
    · rfl
    · simp only [List.all_cons]
      rw [mintDigitalIdOnBase_trace_no_created]
      rfl
  · unfold queueTokenMinting
    dsimp only
    split
    · apply udiUpdate_no_created
      · intro u
        rfl
      · intro u
        simp
    · exact mintDigitalIdOnBase_db_no_created env oracle _ digitalIdId

/-- The two-candidate loop evaluated against an oracle: first candidate succeeds. -/
theorem tryMintLoop_first_ok (oracle : ChainOracle) (ca recipient url : String)
    (r : TxReceipt) (h1 : oracle (mintToCall ca recipient url) = Except.ok r) :
    tryMintLoop oracle ca recipient url mintMethods none =
      (some r, none, [MintEvent.chainCall (mintToCall ca recipient url)]) := by
  unfold mintMethods tryMintLoop
  dsimp only
  simp only [mintToCall] at h1
  rw [h1]
  rfl

/-- First candidate raises, second succeeds. -/
theorem tryMintLoop_second_ok (oracle : ChainOracle) (ca recipient url : String)
    (e1 : String) (r : TxReceipt)
    (h1 : oracle (mintToCall ca recipient url) = Except.error e1)
    (h2 : oracle (safeMintCall ca recipient url) = Except.ok r) :
    tryMintLoop oracle ca recipient url mintMethods none =
      (some r, none,
       [MintEvent.chainCall (mintToCall ca recipient url),
        MintEvent.chainCall (safeMintCall ca recipient url)]) := by
  unfold mintMethods tryMintLoop
  dsimp only
  simp only [mintToCall] at h1
  simp only [safeMintCall] at h2
  rw [h1]
  dsimp only
  unfold tryMintLoop
  dsimp only
  rw [h2]
  rfl

/-- Both candidates raise: no receipt, last error kept, both calls made. -/
theorem tryMintLoop_both_fail (oracle : ChainOracle) (ca recipient url : String)
    (e1 e2 : String)
    (h1 : oracle (mintToCall ca recipient url) = Except.error e1)
    (h2 : oracle (safeMintCall ca recipient url) = Except.error e2) :
    tryMintLoop oracle ca recipient url mintMethods none =
      (none, some e2,
       [MintEvent.chainCall (mintToCall ca recipient url),
        MintEvent.chainCall (safeMintCall ca recipient url)]) := by
  unfold mintMethods tryMintLoop
  dsimp only
  simp only [mintToCall] at h1
  simp only [safeMintCall] at h2
  rw [h1]
  dsimp only
  unfold tryMintLoop
  dsimp only
  rw [h2]
  rfl

/-- C6: the coordinator tries the candidate call signatures in a fixed order — the
mint-to-address-with-uri shape, then the safe-mint shape — against the same metadata
URL; the first success wins (later candidates are not called), only the successful
transaction hash is persisted with status `MINTED`; if all candidates fail, the last
error is surfaced and the record transitions to `MINT_FAILED`. -/
theorem mint_fallback_order (env : Env) (oracle : ChainOracle) (db : Db)
    (digitalIdId : Nat) (cfg : EnvOk) (udi : UniqueDigitalId) (recipient ca : String)
    (henv : ensureEnv env = Except.ok cfg)
    (hfind : db.udis.find? (fun u => u.id = digitalIdId) = some udi)
    (hrec : truthyStr udi.privyWalletAddress = some recipient)
    (hca : resolvedContractAddress env db udi = some ca) :
    (∀ r : TxReceipt,
      oracle (mintToCall ca recipient (metadataUrlOf cfg.appBaseUrl digitalIdId)) =
        Except.ok r →
      mintDigitalIdOnBase env oracle db digitalIdId =
        ({ success := true, transactionHash := r.transactionHash, tokenId := none
           error := none },
         udiUpdate db digitalIdId (fun u =>
           { u with status := UdiStatus.MINTED
                    blockchain := some (getBlockchainName env)
                    transactionHash := r.transactionHash
                    contractAddress := some ca, mintedAt := true }),
         [MintEvent.chainCall (mintToCall ca recipient (metadataUrlOf cfg.appBaseUrl digitalIdId)),
          MintEvent.recordMinted digitalIdId (getBlockchainName env) r.transactionHash ca])) ∧
    (∀ (e1 : String) (r : TxReceipt),
      oracle (mintToCall ca recipient (metadataUrlOf cfg.appBaseUrl digitalIdId)) =
        Except.error e1 →
      oracle (safeMintCall ca recipient (metadataUrlOf cfg.appBaseUrl digitalIdId)) =
        Except.ok r →
      mintDigitalIdOnBase env oracle db digitalIdId =
        ({ success := true, transactionHash := r.transactionHash, tokenId := none
           error := none },
         udiUpdate db digitalIdId (fun u =>
           { u with status := UdiStatus.MINTED
                    blockchain := some (getBlockchainName env)
                    transactionHash := r.transactionHash
                    contractAddress := some ca, mintedAt := true }),
         [MintEvent.chainCall (mintToCall ca recipient (metadataUrlOf cfg.appBaseUrl digitalIdId)),
          MintEvent.chainCall (safeMintCall ca recipient (metadataUrlOf cfg.appBaseUrl digitalIdId)),
          MintEvent.recordMinted digitalIdId (getBlockchainName env) r.transactionHash ca])) ∧
    (∀ e1 e2 : String,
      oracle (mintToCall ca recipient (metadataUrlOf cfg.appBaseUrl digitalIdId)) =
        Except.error e1 →
      oracle (safeMintCall ca recipient (metadataUrlOf cfg.appBaseUrl digitalIdId)) =
        Except.error e2 →
      mintDigitalIdOnBase env oracle db digitalIdId =
        ({ success := false, transactionHash := none, tokenId := none
           error := some ("Mint transaction failed: " ++ e2) },
         udiUpdate db digitalIdId (fun u => { u with status := UdiStatus.MINT_FAILED }),
         [MintEvent.chainCall (mintToCall ca recipient (metadataUrlOf cfg.appBaseUrl digitalIdId)),
          MintEvent.chainCall (safeMintCall ca recipient (metadataUrlOf cfg.appBaseUrl digitalIdId)),
          MintEvent.setStatus digitalIdId UdiStatus.MINT_FAILED])) := by
  have hca2 : truthyStr (jsOrStr udi.contractAddress
      (jsOrStr ((db.variants.find? (fun v => v.id = udi.coreProductVariantId)).bind
        (fun v => v.defaultSmartContractAddress)) env.DEFAULT_CONTRACT_ADDRESS)) = some ca := hca
  refine ⟨?_, ?_, ?_⟩
  · intro r h1
    have ht := tryMintLoop_first_ok oracle ca recipient
      (metadataUrlOf cfg.appBaseUrl digitalIdId) r h1
    unfold mintDigitalIdOnBase
    rw [henv]
    dsimp only
    rw [hfind]
    dsimp only
    rw [hrec]
    dsimp only
    rw [hca2]
    dsimp only
    rw [ht]
    rfl
  · intro e1 r h1 h2
    have ht := tryMintLoop_second_ok oracle ca recipient
      (metadataUrlOf cfg.appBaseUrl digitalIdId) e1 r h1 h2
    unfold mintDigitalIdOnBase
    rw [henv]
    dsimp only
    rw [hfind]
    dsimp only
    rw [hrec]
    dsimp only
    rw [hca2]
    dsimp only
    rw [ht]
    rfl
  · intro e1 e2 h1 h2
    have ht := tryMintLoop_both_fail oracle ca recipient
      (metadataUrlOf cfg.appBaseUrl digitalIdId) e1 e2 h1 h2
    unfold mintDigitalIdOnBase
    rw [henv]
    dsimp only
    rw [hfind]
    dsimp only
    rw [hrec]
    dsimp only
    rw [hca2]
    dsimp only
    rw [ht]
    rfl

/-- C6 witness: against a contract whose first candidate reverts and whose second
succeeds, a `CREATED` record ends `MINTED` carrying exactly the second call's
transaction hash, with both calls sharing one metadata URL. -/
theorem mint_fallback_order_witness :
    mintDigitalIdOnBase exEnvFull exOracleFallback exUdiDb 7 =
      ({ success := true, transactionHash := some "0xabc", tokenId := none
         error := none },
       udiUpdate exUdiDb 7 (fun u =>
         { u with status := UdiStatus.MINTED
                  blockchain := some (getBlockchainName exEnvFull)
                  transactionHash := some "0xabc"
                  contractAddress := some "0xC0", mintedAt := true }),
       [MintEvent.chainCall (mintToCall "0xC0" "0xW"
          (metadataUrlOf "https://app.example.com/" 7)),
        MintEvent.chainCall (safeMintCall "0xC0" "0xW"
          (metadataUrlOf "https://app.example.com/" 7)),
        MintEvent.recordMinted 7 (getBlockchainName exEnvFull) (some "0xabc") "0xC0"]) :=
  (mint_fallback_order exEnvFull exOracleFallback exUdiDb 7
      { clientId := "cid"
        privateKey := "0x0123456789012345678901234567890123456789012345678901234567890123"
        appBaseUrl := "https://app.example.com/" }
      exUdi "0xW" "0xC0" (by rfl) (by decide) (by decide) (by decide)).2.1
    "execution reverted" { transactionHash := some "0xabc" } (by rfl) (by rfl)

/-- C3: for a job that reaches the identity-issuance step, the created/failed counts
returned by `createDigitalIdsForOrder` determine the status written to the order
record: no failures → `COMPLETED`; some created and some failed →
`PARTIALLY_COMPLETED`; none created but failures → `FAILED_UDI_CREATION`; an exception
during the attempt → `FAILED_UDI_CREATION_ERROR`; a missing prerequisite (no user or
no mirrored order, with the order record present to carry a status) →
`FAILED_PREREQUISITES_FOR_UDI`. -/
theorem order_status_aggregation (env : Env) (oracle : ChainOracle) (db : Db)
    (a : IssueArgs) (r : IssueResults)
    (hr : r = (createDigitalIdsForOrder env oracle db a).1) :
    (r.failed = 0 →
      udiCreationStatusUpdate true true true (Except.ok r) = some OrderStatus.COMPLETED) ∧
    (r.failed ≠ 0 → 0 < r.created →
      udiCreationStatusUpdate true true true (Except.ok r) =
        some OrderStatus.PARTIALLY_COMPLETED) ∧
    (r.failed ≠ 0 → r.created = 0 →
      udiCreationStatusUpdate true true true (Except.ok r) =
        some OrderStatus.FAILED_UDI_CREATION) ∧
    (∀ er : Unit, udiCreationStatusUpdate true true true (Except.error er) =
      some OrderStatus.FAILED_UDI_CREATION_ERROR) ∧
    (∀ (hasUser3fa hasOrderDbId : Bool) (issuance : Except Unit IssueResults),
      hasUser3fa = false ∨ hasOrderDbId = false →
      udiCreationStatusUpdate hasUser3fa true hasOrderDbId issuance =
        some OrderStatus.FAILED_PREREQUISITES_FOR_UDI) := by
  refine ⟨?_, ?_, ?_, ?_, ?_⟩
  · intro hf
    simp [udiCreationStatusUpdate, hf]
  · intro hf hc
    simp [udiCreationStatusUpdate, hf, hc, Nat.pos_iff_ne_zero.mp hc]
  · intro hf hc
    simp [udiCreationStatusUpdate, hf, hc]
  · intro er
    simp [udiCreationStatusUpdate]
  · intro hU hD issuance h
    rcases h with h | h <;> simp [udiCreationStatusUpdate, h]

/-- C3 witness: three quantity-one line items, two resolvable and one unknown variant,
give created = 2, failed = 1 and resolve the order to `PARTIALLY_COMPLETED`. -/
theorem order_status_aggregation_witness :
    udiCreationStatusUpdate true true true
      (Except.ok (createDigitalIdsForOrder exEnvNone exOracleFail exDb2
        (exArgsOf [exItemA, exItemB, exItemC])).1) =
      some OrderStatus.PARTIALLY_COMPLETED ∧
    (createDigitalIdsForOrder exEnvNone exOracleFail exDb2
      (exArgsOf [exItemA, exItemB, exItemC])).1.created = 2 ∧
    (createDigitalIdsForOrder exEnvNone exOracleFail exDb2
      (exArgsOf [exItemA, exItemB, exItemC])).1.failed = 1 :=
  ⟨(order_status_aggregation exEnvNone exOracleFail exDb2
      (exArgsOf [exItemA, exItemB, exItemC]) _ rfl).2.1 (by decide) (by decide),
   by decide, by decide⟩

/-- C4 counterexample: a line item with no variant reference (`variantId` null) and
quantity 2 is skipped WITHOUT adding its quantity to the failed count — the claim
says failed should become 2, but the code leaves it at 0 (the batch does continue:
the other line item is still issued). -/
theorem unresolved_variant_counting_counterexample :
    (createDigitalIdsForOrder exEnvNone exOracleFail exDb
      (exArgsOf [exItemNoVariant, exItemA])).1.failed = 0 ∧
    (createDigitalIdsForOrder exEnvNone exOracleFail exDb
      (exArgsOf [exItemNoVariant, exItemA])).1.created = 1 ∧
    exItemNoVariant.quantity = 2 := by
  decide

/-- C4 (amended): a line item with a falsy variant reference (null/undefined/`0n`) is
skipped silently — no failure count increment; a variant record that is not found, or
one lacking the brand linkage, adds the quantity to `failed`; in every case the batch
continues with the remaining line items from the resulting state. -/
theorem unresolved_variant_skip (env : Env) (oracle : ChainOracle) (a : IssueArgs)
    (li : LineItemInput) (rest : List LineItemInput) (st : IssueState) :
    ((li.variantId = none ∨ li.variantId = some 0) →
      processLineItems env oracle a (li :: rest) st =
        processLineItems env oracle a rest st) ∧
    (∀ v : Nat, li.variantId = some v → v ≠ 0 →
      findVariant st.db.variants a.shopId v = none →
      processLineItems env oracle a (li :: rest) st =
        processLineItems env oracle a rest (addFailed st li.quantity)) ∧
    (∀ (v : Nat) (cv : CoreProductVariant), li.variantId = some v → v ≠ 0 →
      findVariant st.db.variants a.shopId v = some cv →
      truthyStr cv.brand_3fa_id = none →
      processLineItems env oracle a (li :: rest) st =
        processLineItems env oracle a rest (addFailed st li.quantity)) := by
  refine ⟨?_, ?_, ?_⟩
  · intro h
    rw [processLineItems_cons]
    congr 1
    unfold processLineItem
    rcases h with h | h <;> rw [h]
    rfl
  · intro v hv hv0 hfd
    rw [processLineItems_cons]
    congr 1
    unfold processLineItem
    rw [hv]
    dsimp only
    rw [if_neg hv0, hfd]
  · intro v cv hv hv0 hfd hb
    rw [processLineItems_cons]
    congr 1
    unfold processLineItem
    rw [hv]
    dsimp only
    rw [if_neg hv0, hfd]
    dsimp only
    rw [hb]

/-- C4 amended witness: the silent-skip branch applied to the null-variant item. -/
theorem unresolved_variant_skip_witness :
    processLineItems exEnvNone exOracleFail (exArgsOf [exItemNoVariant])
      (exItemNoVariant :: []) exIssueState0 =
    processLineItems exEnvNone exOracleFail (exArgsOf [exItemNoVariant]) [] exIssueState0 :=
  (unresolved_variant_skip exEnvNone exOracleFail (exArgsOf [exItemNoVariant])
    exItemNoVariant [] exIssueState0).1 (Or.inl rfl)

/-- C10 (implicit): the created/failed counts returned by `createDigitalIdsForOrder` —
and therefore the `COMPLETED`/`PARTIALLY_COMPLETED` resolution — do not depend on the
minting environment or on the chain's behaviour; concretely, an order resolves to
`COMPLETED` while none of its identities is `MINTED` (they stay `MINT_PENDING`). -/
theorem created_count_mint_independent :
    (∀ (env1 env2 : Env) (oracle1 oracle2 : ChainOracle) (db : Db) (a : IssueArgs),
      (createDigitalIdsForOrder env1 oracle1 db a).1.created =
        (createDigitalIdsForOrder env2 oracle2 db a).1.created ∧
      (createDigitalIdsForOrder env1 oracle1 db a).1.failed =
        (createDigitalIdsForOrder env2 oracle2 db a).1.failed ∧
      udiCreationStatusUpdate true true true
          (Except.ok (createDigitalIdsForOrder env1 oracle1 db a).1) =
        udiCreationStatusUpdate true true true
          (Except.ok (createDigitalIdsForOrder env2 oracle2 db a).1)) ∧
    (udiCreationStatusUpdate true true true
        (Except.ok (createDigitalIdsForOrder exEnvNone exOracleFail exDb
          (exArgsOf [exItem])).1) = some OrderStatus.COMPLETED ∧
     ((createDigitalIdsForOrder exEnvNone exOracleFail exDb
        (exArgsOf [exItem])).2.1.udis.all
          (fun u => !(u.status == UdiStatus.MINTED))) = true ∧
     0 < (createDigitalIdsForOrder exEnvNone exOracleFail exDb
        (exArgsOf [exItem])).1.created) := by
  constructor
  · intro env1 env2 oracle1 oracle2 db a
    have hsim := processLineItems_sim env1 env2 oracle1 oracle2 a a.lineItems
      (s := { results := { created := 0, failed := 0, digitalIds := [] }
              db := db, trace := [] })
      (t := { results := { created := 0, failed := 0, digitalIds := [] }
              db := db, trace := [] })
      ⟨rfl, rfl, rfl, rfl⟩
    obtain ⟨hc, hf, _, _⟩ := hsim
    refine ⟨hc, hf, ?_⟩
    unfold udiCreationStatusUpdate createDigitalIdsForOrder
    dsimp only
    rw [hc, hf]
  · exact ⟨by decide, by decide, by decide⟩

/-- C8: a single-line-item order whose item has quantity n ≥ 1 and a resolvable
product variant yields exactly n records, created at status `CREATED`, whose
uniqueness keys are the line-item GID alone for n = 1 and the GID qualified with unit
index 1..n for n > 1 — pairwise distinct — and the store gains exactly those keys. -/
theorem quantity_expansion (env : Env) (oracle : ChainOracle) (db : Db) (a : IssueArgs)
    (li : LineItemInput) (v : Nat) (cv : CoreProductVariant) (bb : String)
    (hitems : a.lineItems = [li])
    (hv : li.variantId = some v) (hv0 : v ≠ 0)
    (hfind : findVariant db.variants a.shopId v = some cv)
    (hb : truthyStr cv.brand_3fa_id = some bb)
    (hq : 1 ≤ li.quantity)
    (hfresh : ∀ i, i < li.quantity → unitKey li.shopifyId li.quantity i ∉ udiKeys db) :
    (createDigitalIdsForOrder env oracle db a).1.created = li.quantity ∧
    (createDigitalIdsForOrder env oracle db a).1.failed = 0 ∧
    (createDigitalIdsForOrder env oracle db a).1.digitalIds.map
        (fun u => u.shopifyLineItemId) =
      (List.range li.quantity).map (unitKey li.shopifyId li.quantity) ∧
    ((createDigitalIdsForOrder env oracle db a).1.digitalIds.map
        (fun u => u.shopifyLineItemId)).Nodup ∧
    (∀ u ∈ (createDigitalIdsForOrder env oracle db a).1.digitalIds,
      u.status = UdiStatus.CREATED) ∧
    udiKeys (createDigitalIdsForOrder env oracle db a).2.1 =
      udiKeys db ++ (List.range li.quantity).map (unitKey li.shopifyId li.quantity) := by
  have hspec := createUnits_spec env oracle a cv bb li (List.range li.quantity)
    { results := { created := 0, failed := 0, digitalIds := [] }, db := db, trace := [] }
    (by
      intro i hi
      exact hfresh i (List.mem_range.mp hi))
    (by
      intro i hi j hj hk
      exact unitKey_inj li.shopifyId li.quantity (List.mem_range.mp hi)
        (List.mem_range.mp hj) hk)
    (List.nodup_range li.quantity)
  obtain ⟨stOut, hrun, hcre, hfail, ⟨recs, hdi, hdkeys, hdst⟩, hok⟩ := hspec
  have hmain : createDigitalIdsForOrder env oracle db a =
      (stOut.results, stOut.db, stOut.trace) := by
    unfold createDigitalIdsForOrder processLineItems
    rw [hitems]
    simp only [List.foldl_cons, List.foldl_nil]
    unfold processLineItem
    rw [hv]
    dsimp only
    rw [if_neg hv0, hfind]
    dsimp only
    rw [hb]
    dsimp only
    rw [hrun]
  rw [hmain]
  dsimp only
  have hnodup : (stOut.results.digitalIds.map (fun u => u.shopifyLineItemId)).Nodup := by
    rw [hdi]
    simp only [List.nil_append]
    rw [hdkeys]
    exact List.Nodup.map_on
      (fun x hx y hy hk => unitKey_inj li.shopifyId li.quantity (List.mem_range.mp hx)
        (List.mem_range.mp hy) hk)
      (List.nodup_range li.quantity)
  refine ⟨?_, ?_, ?_, hnodup, ?_, ?_⟩
  · rw [hcre]
    simp
  · rw [hfail]
  · rw [hdi]
    simp only [List.nil_append]
    exact hdkeys
  · intro u hu
    rw [hdi] at hu
    simp only [List.nil_append] at hu
    exact hdst u hu
  · rw [hok]

/-- C8 witness: quantity 3 yields exactly three `CREATED` records with the three
distinct unit-index-qualified keys. -/
theorem quantity_expansion_witness :
    (createDigitalIdsForOrder exEnvNone exOracleFail exDb (exArgsOf [exItem])).1.created
        = exItem.quantity ∧
    (createDigitalIdsForOrder exEnvNone exOracleFail exDb
        (exArgsOf [exItem])).1.digitalIds.map (fun u => u.shopifyLineItemId) =
      (List.range exItem.quantity).map (unitKey exItem.shopifyId exItem.quantity) ∧
    ((createDigitalIdsForOrder exEnvNone exOracleFail exDb
        (exArgsOf [exItem])).1.digitalIds.map (fun u => u.shopifyLineItemId)).Nodup :=
  have h := quantity_expansion exEnvNone exOracleFail exDb (exArgsOf [exItem]) exItem
    501 exVariant "brand-1" rfl rfl (by decide) (by decide) (by decide) (by decide)
    (by
      intro i hi hmem
      simp [udiKeys, exDb] at hmem)
  ⟨h.1, h.2.2.1, h.2.2.2.1⟩

/-- C2: identity issuance is idempotent — re-running `createDigitalIdsForOrder` with
the same arguments changes nothing in the store (same record set), creates no record,
and key uniqueness (at most one record per uniqueness key) is preserved by a run. -/
theorem issuance_idempotent (env : Env) (oracle : ChainOracle) (db : Db) (a : IssueArgs)
    (hnd : (udiKeys db).Nodup) :
    (createDigitalIdsForOrder env oracle
        (createDigitalIdsForOrder env oracle db a).2.1 a).2.1 =
      (createDigitalIdsForOrder env oracle db a).2.1 ∧
    (createDigitalIdsForOrder env oracle
        (createDigitalIdsForOrder env oracle db a).2.1 a).1.digitalIds = [] ∧
    (createDigitalIdsForOrder env oracle
        (createDigitalIdsForOrder env oracle db a).2.1 a).1.created = 0 ∧
    (udiKeys (createDigitalIdsForOrder env oracle db a).2.1).Nodup := by
  have hko := processLineItems_keysOk env oracle a a.lineItems
    { results := { created := 0, failed := 0, digitalIds := [] }, db := db, trace := [] }
  obtain ⟨⟨lnew, hlnew⟩, hvars, hnodup⟩ := hko
  have hdb1 : (createDigitalIdsForOrder env oracle db a).2.1 =
      (processLineItems env oracle a a.lineItems
        { results := { created := 0, failed := 0, digitalIds := [] }
          db := db, trace := [] }).db := rfl
  have H : ∀ li ∈ a.lineItems,
      resolvesVariant (createDigitalIdsForOrder env oracle db a).2.1.variants a.shopId li →
      1 ≤ li.quantity →
      unitKey li.shopifyId li.quantity 0 ∈
        udiKeys (createDigitalIdsForOrder env oracle db a).2.1 := by
    intro li hmem hres hq
    rw [hdb1] at hres ⊢
    rw [hvars] at hres
    exact processLineItems_key0 env oracle a a.lineItems _ li hmem hres hq
  have hnoop := processLineItems_noop env oracle a a.lineItems
    { results := { created := 0, failed := 0, digitalIds := [] }
      db := (createDigitalIdsForOrder env oracle db a).2.1, trace := [] }
    (by
      intro li hmem hres hq
      exact H li hmem hres hq)
  obtain ⟨hdb2, hcr2, hdi2, htr2⟩ := hnoop
  exact ⟨hdb2, hdi2, hcr2, hnodup hnd⟩

/-- C2 witness: a concrete second run over the store produced by the first run inserts
nothing and key uniqueness holds. -/
theorem issuance_idempotent_witness :
    (createDigitalIdsForOrder exEnvNone exOracleFail
        (createDigitalIdsForOrder exEnvNone exOracleFail exDb (exArgsOf [exItem])).2.1
        (exArgsOf [exItem])).2.1 =
      (createDigitalIdsForOrder exEnvNone exOracleFail exDb (exArgsOf [exItem])).2.1 ∧
    (createDigitalIdsForOrder exEnvNone exOracleFail
        (createDigitalIdsForOrder exEnvNone exOracleFail exDb (exArgsOf [exItem])).2.1
        (exArgsOf [exItem])).1.digitalIds = [] ∧
    (createDigitalIdsForOrder exEnvNone exOracleFail
        (createDigitalIdsForOrder exEnvNone exOracleFail exDb (exArgsOf [exItem])).2.1
        (exArgsOf [exItem])).1.created = 0 ∧
    (udiKeys (createDigitalIdsForOrder exEnvNone exOracleFail exDb
        (exArgsOf [exItem])).2.1).Nodup :=
  issuance_idempotent exEnvNone exOracleFail exDb (exArgsOf [exItem]) (by decide)

/-! ### Intake lemmas -/

theorem topic_ne_empty_of_norm {topic : String}
    (hnorm : normalizeTopic topic = "orders/create") : topic ≠ "" := by
  intro h
  rw [h] at hnorm
  exact absurd hnorm (by decide)

/-- Shape of a first (fresh-dedup-key) ingest: the raw event is appended (its dedup
key is the header), the pre-existing rows keep their dedup keys, and at most one job
is enqueued. -/
theorem action_first_ingest (st : IntakeState) (now : Nat) (shop topic k : String)
    (p : PayloadOrder) (oid : Nat)
    (hshop : shop ≠ "") (hnorm : normalizeTopic topic = "orders/create")
    (hid : p.id = some oid)
    (hfresh : ∀ e ∈ st.events, e.eventId ≠ k) :
    ∃ l ev,
      (action st now shop topic (some k) p).2.events = l ++ [ev] ∧
      l.map (fun e => e.eventId) = st.events.map (fun e => e.eventId) ∧
      ev.eventId = k ∧
      ((action st now shop topic (some k) p).2.jobs = st.jobs ∨
        ∃ j, (action st now shop topic (some k) p).2.jobs = st.jobs ++ [j]) := by
  have htop := topic_ne_empty_of_norm hnorm
  have hcond : ¬(shop = "" ∨ topic = "") := by
    intro h
    rcases h with h | h
    · exact hshop h
    · exact htop h
  have hany : st.events.any (fun e => e.eventId == k) = false := by
    rw [List.any_eq_false]
    intro e he
    simp [hfresh e he]
  unfold action
  rw [if_neg hcond, hid]
  dsimp only
  rw [hnorm]
  rw [if_neg (by simp)]
  unfold webhookEventCreate
  rw [hany, if_neg Bool.false_ne_true]
  dsimp only
  by_cases hph : isFalsyStr (customerPhoneOf p) = true
  · rw [if_pos hph]
    dsimp only [webhookEventUpdate]
    refine ⟨(st.events.map (fun e => if e.id = st.nextEventId then
      { e with processed := true, processedAt := true
               lastError := some "Skipped: No customer phone number found in payload." }
      else e)),
      { id := st.nextEventId, shopId := shop, topic := "orders/create", payload := p
        processed := true, processedAt := true
        lastError := some "Skipped: No customer phone number found in payload."
        errorCount := 0, eventId := k }, ?_, ?_, rfl, Or.inl rfl⟩
    · rw [List.map_append]
      simp
    · rw [List.map_map]
      apply List.map_congr_left
      intro e _
      by_cases h : e.id = st.nextEventId <;> simp [h]
  · rw [if_neg hph]
    unfold queueAdd
    refine ⟨st.events,
      { id := st.nextEventId, shopId := shop, topic := "orders/create", payload := p
        processed := false, processedAt := false, lastError := none
        errorCount := 0, eventId := k }, ?_, rfl, rfl, ?_⟩
    · dsimp only
      split <;> rfl
    · dsimp only
      split
      · exact Or.inl rfl
      · exact Or.inr ⟨_, rfl⟩

/-- Ingesting with a dedup key that is already stored raises at the insert and returns
the generic acknowledgment, leaving the state untouched. -/
theorem action_dup_key (s : IntakeState) (now : Nat) (shop topic k : String)
    (p : PayloadOrder) (oid : Nat)
    (hshop : shop ≠ "") (hnorm : normalizeTopic topic = "orders/create")
    (hid : p.id = some oid)
    (hany : s.events.any (fun e => e.eventId == k) = true) :
    action s now shop topic (some k) p =
      ({ status := 200
         body := some "Error processing webhook internally, acknowledged." }, s) := by
  have htop := topic_ne_empty_of_norm hnorm
  have hcond : ¬(shop = "" ∨ topic = "") := by
    intro h
    rcases h with h | h
    · exact hshop h
    · exact htop h
  unfold action
  rw [if_neg hcond, hid]
  dsimp only
  rw [hnorm]
  rw [if_neg (by simp)]
  unfold webhookEventCreate
  rw [hany, if_pos rfl]

/-- C1 (amended): ingesting the same dedup key twice persists exactly one RawEvent and
enqueues at most one job — but the second ingest is not a graceful replay returning
the prior result: the duplicate insert raises, the catch acknowledges with the generic
internal-error body (still HTTP 200), and the store is left exactly as after the first
ingest. -/
theorem intake_dedup_idempotent (st : IntakeState) (now1 now2 : Nat)
    (shop topic k : String) (p : PayloadOrder) (oid : Nat)
    (hshop : shop ≠ "") (hnorm : normalizeTopic topic = "orders/create")
    (hid : p.id = some oid)
    (hfresh : ∀ e ∈ st.events, e.eventId ≠ k) :
    (action (action st now1 shop topic (some k) p).2 now2 shop topic (some k) p).2 =
      (action st now1 shop topic (some k) p).2 ∧
    (action (action st now1 shop topic (some k) p).2 now2 shop topic (some k) p).1 =
      { status := 200, body := some "Error processing webhook internally, acknowledged." } ∧
    ((action st now1 shop topic (some k) p).2.events.filter
        (fun e => e.eventId == k)).length = 1 ∧
    ((action st now1 shop topic (some k) p).2.jobs = st.jobs ∨
      ∃ j, (action st now1 shop topic (some k) p).2.jobs = st.jobs ++ [j]) := by
  have htop := topic_ne_empty_of_norm hnorm
  have hcond : ¬(shop = "" ∨ topic = "") := by
    intro h
    rcases h with h | h
    · exact hshop h
    · exact htop h
  obtain ⟨l, ev, hev, hmap, hevk, hjobs⟩ :=
    action_first_ingest st now1 shop topic k p oid hshop hnorm hid hfresh
  have hl_ne : ∀ e ∈ l, e.eventId ≠ k := by
    intro e he hk
    have : e.eventId ∈ l.map (fun e => e.eventId) := List.mem_map_of_mem _ he
    rw [hmap] at this
    obtain ⟨e2, he2, he2k⟩ := List.mem_map.mp this
    exact hfresh e2 he2 (by rw [he2k, hk])
  have hany2 : (action st now1 shop topic (some k) p).2.events.any
      (fun e => e.eventId == k) = true := by
    rw [List.any_eq_true]
    exact ⟨ev, by rw [hev]; exact List.mem_append_right l (List.mem_singleton_self ev),
      by simp [hevk]⟩
  have hrun2 := action_dup_key (action st now1 shop topic (some k) p).2 now2
    shop topic k p oid hshop hnorm hid hany2
  refine ⟨by rw [hrun2], by rw [hrun2], ?_, hjobs⟩
  rw [hev, List.filter_append]
  have h1 : l.filter (fun e => e.eventId == k) = [] := by
    rw [List.filter_eq_nil_iff]
    intro e he
    simp [hl_ne e he]
  have h2 : [ev].filter (fun e => e.eventId == k) = [ev] := by
    simp [List.filter, hevk]
  rw [h1, h2]
  rfl

/-- C1 counterexample: the part of the claim that fails — the second ingest does not
return the prior result: the first ingest answers 200 with an empty body after
enqueuing, the replay answers 200 with the generic internal-error acknowledgment
(exactly one stored event and one job nevertheless). -/
theorem intake_replay_counterexample :
    (action (action exState0 0 "shop1.myshopify.com" "ORDERS_CREATE" (some "evt-1")
        exPayload).2 5 "shop1.myshopify.com" "ORDERS_CREATE" (some "evt-1")
        exPayload).1 ≠
      (action exState0 0 "shop1.myshopify.com" "ORDERS_CREATE" (some "evt-1")
        exPayload).1 ∧
    (action (action exState0 0 "shop1.myshopify.com" "ORDERS_CREATE" (some "evt-1")
        exPayload).2 5 "shop1.myshopify.com" "ORDERS_CREATE" (some "evt-1")
        exPayload).2.events.length = 1 ∧
    (action (action exState0 0 "shop1.myshopify.com" "ORDERS_CREATE" (some "evt-1")
        exPayload).2 5 "shop1.myshopify.com" "ORDERS_CREATE" (some "evt-1")
        exPayload).2.jobs.length = 1 := by
  decide

/-- C1 amended witness: a concrete double ingest of dedup key `evt-1`. -/
theorem intake_dedup_idempotent_witness :
    (action (action exState0 0 "shop1.myshopify.com" "ORDERS_CREATE" (some "evt-1")
        exPayload).2 5 "shop1.myshopify.com" "ORDERS_CREATE" (some "evt-1")
        exPayload).2 =
      (action exState0 0 "shop1.myshopify.com" "ORDERS_CREATE" (some "evt-1")
        exPayload).2 ∧
    (action (action exState0 0 "shop1.myshopify.com" "ORDERS_CREATE" (some "evt-1")
        exPayload).2 5 "shop1.myshopify.com" "ORDERS_CREATE" (some "evt-1")
        exPayload).1 =
      { status := 200, body := some "Error processing webhook internally, acknowledged." } ∧
    ((action exState0 0 "shop1.myshopify.com" "ORDERS_CREATE" (some "evt-1")
        exPayload).2.events.filter (fun e => e.eventId == "evt-1")).length = 1 ∧
    ((action exState0 0 "shop1.myshopify.com" "ORDERS_CREATE" (some "evt-1")
        exPayload).2.jobs = exState0.jobs ∨
      ∃ j, (action exState0 0 "shop1.myshopify.com" "ORDERS_CREATE" (some "evt-1")
        exPayload).2.jobs = exState0.jobs ++ [j]) :=
  intake_dedup_idempotent exState0 0 5 "shop1.myshopify.com" "ORDERS_CREATE" "evt-1"
    exPayload 1001 (by decide) (by decide) (by decide)
    (by intro e he; simp [exState0] at he)

/-- C5 counterexample: the extraction is nullish-coalescing, not first-non-empty — a
present-but-empty direct phone field wins over a non-empty shipping phone, so although
the spec-worded extraction finds "15550002222" (and the claim then promises an
enqueued job), the handler short-circuits: no job, RawEvent marked processed with the
explanatory note. -/
theorem phone_extraction_counterexample :
    specPhoneExtract exPayloadEmptyPhone = some "15550002222" ∧
    customerPhoneOf exPayloadEmptyPhone = some "" ∧
    (action exState0 0 "shop1.myshopify.com" "orders/create" (some "evt-2")
      exPayloadEmptyPhone).2.jobs = [] ∧
    ((action exState0 0 "shop1.myshopify.com" "orders/create" (some "evt-2")
        exPayloadEmptyPhone).2.events.map (fun e => (e.processed, e.lastError))) =
      [(true, some "Skipped: No customer phone number found in payload.")] ∧
    (action exState0 0 "shop1.myshopify.com" "orders/create" (some "evt-2")
        exPayloadEmptyPhone).1 =
      { status := 200, body := some "Acknowledged, no phone number." } := by
  decide

/-- C5 (amended): the handler extracts the phone from the prioritized locations with
the first non-NULL value winning (an empty string counts as found and then fails the
truthiness test); whenever the extracted value is falsy (absent everywhere, or the
winning value empty), the stored RawEvent is marked `processed = true` with the
explanatory note, no job is enqueued, and the handler acknowledges with 200 — a
short-circuit, not a failure. -/
theorem no_phone_short_circuit :
    (∀ p : PayloadOrder, customerPhoneOf p = firstNonNull (phoneLocations p)) ∧
    (∀ (st : IntakeState) (now : Nat) (shop topic k : String) (p : PayloadOrder)
        (oid : Nat),
      shop ≠ "" → normalizeTopic topic = "orders/create" → p.id = some oid →
      (∀ e ∈ st.events, e.eventId ≠ k) →
      isFalsyStr (customerPhoneOf p) = true →
      (action st now shop topic (some k) p).2.jobs = st.jobs ∧
      (action st now shop topic (some k) p).1 =
        { status := 200, body := some "Acknowledged, no phone number." } ∧
      ∃ l ev, (action st now shop topic (some k) p).2.events = l ++ [ev] ∧
        ev.processed = true ∧ ev.processedAt = true ∧
        ev.lastError = some "Skipped: No customer phone number found in payload." ∧
        ev.eventId = k ∧ ev.payload = p ∧
        l.map (fun e => e.eventId) = st.events.map (fun e => e.eventId)) := by
  constructor
  · intro p
    unfold customerPhoneOf phoneLocations
    cases h1 : p.phone with
    | some s => simp [firstNonNull, Option.orElse]
    | none =>
      cases h2 : p.shipping_address.bind (fun a => a.phone) with
      | some s => simp [firstNonNull, h2, Option.orElse]
      | none =>
        cases h3 : p.billing_address.bind (fun a => a.phone) with
        | some s => simp [firstNonNull, h2, h3, Option.orElse]
        | none =>
          cases h4 : p.customer.bind (fun c => c.phone) with
          | some s => simp [firstNonNull, h2, h3, h4, Option.orElse]
          | none => simp [firstNonNull, h2, h3, h4, Option.orElse]
  · intro st now shop topic k p oid hshop hnorm hid hfresh hph
    have htop := topic_ne_empty_of_norm hnorm
    have hcond : ¬(shop = "" ∨ topic = "") := by
      intro h
      rcases h with h | h
      · exact hshop h
      · exact htop h
    have hany : st.events.any (fun e => e.eventId == k) = false := by
      rw [List.any_eq_false]
      intro e he
      simp [hfresh e he]
    unfold action
    rw [if_neg hcond, hid]
    dsimp only
    rw [hnorm]
    rw [if_neg (by simp)]
    unfold webhookEventCreate
    rw [hany, if_neg Bool.false_ne_true]
    dsimp only
    rw [if_pos hph]
    dsimp only [webhookEventUpdate]
    refine ⟨rfl, rfl,
      (st.events.map (fun e => if e.id = st.nextEventId then
        { e with processed := true, processedAt := true
                 lastError := some "Skipped: No customer phone number found in payload." }
        else e)),
      { id := st.nextEventId, shopId := shop, topic := "orders/create", payload := p
        processed := true, processedAt := true
        lastError := some "Skipped: No customer phone number found in payload."
        errorCount := 0, eventId := k }, ?_, rfl, rfl, rfl, rfl, rfl, ?_⟩
    · rw [List.map_append]
      simp
    · rw [List.map_map]
      apply List.map_congr_left
      intro e _
      by_cases h : e.id = st.nextEventId <;> simp [h]

/-- C5 amended witness: a payload with no phone anywhere is short-circuited. -/
theorem no_phone_short_circuit_witness :
    (action exState0 3 "shop1.myshopify.com" "orders/create" (some "evt-3")
      { id := some 3003, phone := none, shipping_address := none
        billing_address := none, customer := none }).2.jobs = exState0.jobs ∧
    (action exState0 3 "shop1.myshopify.com" "orders/create" (some "evt-3")
      { id := some 3003, phone := none, shipping_address := none
        billing_address := none, customer := none }).1 =
      { status := 200, body := some "Acknowledged, no phone number." } ∧
    ∃ l ev, (action exState0 3 "shop1.myshopify.com" "orders/create" (some "evt-3")
      { id := some 3003, phone := none, shipping_address := none
        billing_address := none, customer := none }).2.events = l ++ [ev] ∧
      ev.processed = true ∧ ev.processedAt = true ∧
      ev.lastError = some "Skipped: No customer phone number found in payload." ∧
      ev.eventId = "evt-3" ∧
      ev.payload = { id := some 3003, phone := none, shipping_address := none
                     billing_address := none, customer := none } ∧
      l.map (fun e => e.eventId) = exState0.events.map (fun e => e.eventId) :=
  no_phone_short_circuit.2 exState0 3 "shop1.myshopify.com" "orders/create" "evt-3"
    { id := some 3003, phone := none, shipping_address := none
      billing_address := none, customer := none } 3003
    (by decide) (by decide) (by decide) (by intro e he; simp [exState0] at he)
    (by decide)

end ThreeFA
